import Mathlib

/-!
# Verification of the MProc parser front-end

Shallow embedding of `src/mproc/parser/parser.py`, `src/mproc/parser/contexts.py`
and `src/mproc/syntax_tree/__init__.py`.  Strings are modelled as `List Char`
(`Str`); the end-of-file marker (Python's empty string returned by
`file.read(1)`) is `Option.none`.  Python's `int(s, base)` and `float(s)` are
embedded for ASCII inputs; float values are carried exactly (as rationals,
with signed infinities and NaN as separate constructors), since the parser
only stores the parsed value and never computes with it.
-/

namespace MProc

abbrev Str := List Char

/-- `string.whitespace` minus `"\n"`, i.e. `Parser.whitespace_set`
(= `Context.whitespace_set`). -/
def whitespace_set : Str := [' ', '\t', '\r', '\x0b', '\x0c']

/-- Whitespace used by Python's `str.strip()` / `int()` / `float()`:
`string.whitespace` (ASCII part). -/
def pyWhitespace : Str := [' ', '\t', '\n', '\r', '\x0b', '\x0c']

/-! ## Python numeric string parsing (`int(s, base)` and `float(s)`) -/

/-- Value of one digit character in the given base, if valid. -/
def pyDigitVal (base : Nat) (c : Char) : Option Nat :=
  let v : Option Nat :=
    if '0' ≤ c ∧ c ≤ '9' then some (c.toNat - '0'.toNat)
    else if 'a' ≤ c ∧ c ≤ 'f' then some (c.toNat - 'a'.toNat + 10)
    else if 'A' ≤ c ∧ c ≤ 'F' then some (c.toNat - 'A'.toNat + 10)
    else none
  match v with
  | some n => if n < base then some n else none
  | none => none

/-- Digit run with single underscores allowed between digits.  An underscore
must be followed by a digit; the run may start with an underscore only when
the caller allows it (directly after a base marker such as `0x`). -/
def pyDigitsGo (base : Nat) (acc : Nat) : Str → Option Nat
  | [] => some acc
  | '_' :: rest =>
    match rest with
    | [] => none
    | d :: _ =>
      match pyDigitVal base d with
      | some _ => pyDigitsGo base acc rest
      | none => none
  | c :: rest =>
    match pyDigitVal base c with
    | some v => pyDigitsGo base (acc * base + v) rest
    | none => none

/-- Digit run of `int()`: nonempty, no leading underscore unless it sits
directly after a base marker. -/
def pyIntDigits (base : Nat) (afterMarker : Bool) (l : Str) : Option Nat :=
  match l with
  | [] => none
  | '_' :: _ => if afterMarker then pyDigitsGo base 0 l else none
  | _ => pyDigitsGo base 0 l

/-- Strip the whitespace `str.strip()` removes (ASCII). -/
def pyStrip (l : Str) : Str :=
  (l.dropWhile (pyWhitespace.contains ·)).reverse.dropWhile (pyWhitespace.contains ·) |>.reverse

/-- Embedding of CPython `int(s, base)` for `base ∈ {2, 10, 16}` on ASCII
strings: surrounding whitespace, an optional sign, an optional `0x`/`0X`
(resp. `0b`/`0B`) marker when the base matches, then base digits with
single underscores between digits. -/
def pyIntOfStr (s : Str) (base : Nat) : Option Int :=
  let l := pyStrip s
  let (sign, l) : Int × Str :=
    match l with
    | '+' :: rest => (1, rest)
    | '-' :: rest => (-1, rest)
    | _ => (1, l)
  let (afterMarker, l) : Bool × Str :=
    match base, l with
    | 16, '0' :: 'x' :: rest => (true, rest)
    | 16, '0' :: 'X' :: rest => (true, rest)
    | 2, '0' :: 'b' :: rest => (true, rest)
    | 2, '0' :: 'B' :: rest => (true, rest)
    | _, _ => (false, l)
  match pyIntDigits base afterMarker l with
  | some n => some (sign * n)
  | none => none

/-- A Python float value as stored in the tree: the parser never computes
with it, so the decimal value is kept exactly. -/
inductive PyFloat where
  | finite (q : ℚ)
  | pinf
  | ninf
  | nan
  deriving DecidableEq

/-- Split a digit run (underscores between digits) into its digits,
rejecting malformed underscore placement.  Returns the digit characters. -/
def pyFloatDigitsGo : Str → Option Str
  | [] => some []
  | '_' :: rest =>
    match rest with
    | d :: _ => if (pyDigitVal 10 d).isSome then pyFloatDigitsGo rest else none
    | [] => none
  | c :: rest =>
    if (pyDigitVal 10 c).isSome then
      match pyFloatDigitsGo rest with
      | some ds => some (c :: ds)
      | none => none
    else none

/-- Digit run of `float()`: as `pyFloatDigitsGo`, but a run may not start
with an underscore. -/
def pyFloatDigits : Str → Option Str
  | [] => some []
  | '_' :: _ => none
  | l => pyFloatDigitsGo l

/-- Take the longest leading run of digits-and-underscores. -/
def pyFloatRun (l : Str) : Str × Str :=
  (l.takeWhile (fun c => c = '_' ∨ (pyDigitVal 10 c).isSome),
   l.dropWhile (fun c => c = '_' ∨ (pyDigitVal 10 c).isSome))

/-- Numeric value of a digit list in base 10. -/
def digitsVal (ds : Str) : Nat :=
  ds.foldl (fun a c => a * 10 + (c.toNat - '0'.toNat)) 0

/-- Embedding of CPython `float(s)` on ASCII strings: whitespace, sign,
then either `inf`/`infinity`/`nan` (case-insensitive) or a decimal mantissa
(`d+`, `d+.d*`, or `.d+`, underscores between digits) with an optional
exponent `e`/`E` sign `d+`. -/
def pyFloatOfStr (s : Str) : Option PyFloat :=
  let l := pyStrip s
  let (neg, l) : Bool × Str :=
    match l with
    | '+' :: rest => (false, rest)
    | '-' :: rest => (true, rest)
    | _ => (false, l)
  let low := l.map Char.toLower
  if low = "inf".toList ∨ low = "infinity".toList then
    some (if neg then .ninf else .pinf)
  else if low = "nan".toList then
    some .nan
  else
    let (intRun, rest1) := pyFloatRun l
    let (fracRun, rest2) : Str × Str :=
      match rest1 with
      | '.' :: r =>
        let (fr, r') := pyFloatRun r
        (fr, r')
      | _ => ([], rest1)
    let hadDot : Bool := match rest1 with | '.' :: _ => true | _ => false
    match pyFloatDigits intRun, pyFloatDigits fracRun with
    | some intDs, some fracDs =>
      if (intDs = [] ∧ fracDs = []) ∨ (hadDot = false ∧ intDs = []) then none
      else
        let mant : ℚ := (digitsVal intDs : ℚ) +
          (digitsVal fracDs : ℚ) / ((10 : ℚ) ^ fracDs.length)
        match rest2 with
        | [] =>
          some (.finite (if neg then -mant else mant))
        | e :: r =>
          if e = 'e' ∨ e = 'E' then
            let (eneg, r) : Bool × Str :=
              match r with
              | '+' :: r' => (false, r')
              | '-' :: r' => (true, r')
              | _ => (false, r)
            let (expRun, rest3) := pyFloatRun r
            match pyFloatDigits expRun with
            | some expDs =>
              if expDs = [] ∨ rest3 ≠ [] then none
              else
                let p : ℚ := (10 : ℚ) ^ (digitsVal expDs)
                let v : ℚ := if eneg then mant / p else mant * p
                some (.finite (if neg then -v else v))
            | none => none
          else none
    | _, _ => none

/-- `NumericLiteral.value`: `int | float`. -/
inductive PyNumber where
  | int (z : Int)
  | float (f : PyFloat)
  deriving DecidableEq

/-! ## Syntax tree (`mproc/syntax_tree/__init__.py`)

Every dataclass carries `line` and `symbol`.  Fields that Python can leave
as `None` (`expression`, `definition`, `Call.arguments`, `Return`'s slot,
`FunctionDefinition.returns`) are `Option Node`. -/

inductive Node where
  | root (line symbol : Nat) (body : List Node)
  | token (line symbol : Nat) (name : Str)
  | numeric (line symbol : Nat) (value : PyNumber)
  | strLit (line symbol : Nat) (value : Str)
  | assignment (line symbol : Nat) (lhs rhs : Node)
  | listN (line symbol : Nat) (expressions : List Node)
  | call (line symbol : Nat) (called : Node) (arguments : Option Node)
  | functionDefinition (line symbol : Nat) (callee : Node) (returns : Option Node)
  | breakN (line symbol : Nat)
  | continueN (line symbol : Nat)
  | endN (line symbol : Nat)
  | stopN (line symbol : Nat)
  | importN (line symbol : Nat) (expression : Option Node)
  | waitN (line symbol : Nat) (expression : Option Node)
  | usingN (line symbol : Nat) (expression : Option Node)
  | varN (line symbol : Nat) (expression : Option Node)
  | returnN (line symbol : Nat) (expression : Option Node)
  | defN (line symbol : Nat) (body : List Node)
  | initN (line symbol : Nat) (body : List Node)
  | progN (line symbol : Nat) (body : List Node)
  | linkN (line symbol : Nat) (body : List Node)
  | ifN (line symbol : Nat) (expression : Option Node) (body body2 : List Node)
  | loopN (line symbol : Nat) (expression : Option Node) (body body2 : List Node)
  | funcN (line symbol : Nat) (definition : Option Node) (body : List Node)
  | enumN (line symbol : Nat) (definition : Option Node) (body : List Node)
  | rawFuncN (line symbol : Nat) (definition : Option Node) (body : Str)
  | mlogN (line symbol : Nat) (body : Str)

/-- `node.line`. -/
def Node.line : Node → Nat
  | .root l _ _ | .token l _ _ | .numeric l _ _ | .strLit l _ _
  | .assignment l _ _ _ | .listN l _ _ | .call l _ _ _
  | .functionDefinition l _ _ _ | .breakN l _ | .continueN l _ | .endN l _
  | .stopN l _ | .importN l _ _ | .waitN l _ _ | .usingN l _ _ | .varN l _ _
  | .returnN l _ _ | .defN l _ _ | .initN l _ _ | .progN l _ _ | .linkN l _ _
  | .ifN l _ _ _ _ | .loopN l _ _ _ _ | .funcN l _ _ _ | .enumN l _ _ _
  | .rawFuncN l _ _ _ | .mlogN l _ _ => l

/-- `node.symbol`. -/
def Node.symbol : Node → Nat
  | .root _ s _ | .token _ s _ | .numeric _ s _ | .strLit _ s _
  | .assignment _ s _ _ | .listN _ s _ | .call _ s _ _
  | .functionDefinition _ s _ _ | .breakN _ s | .continueN _ s | .endN _ s
  | .stopN _ s | .importN _ s _ | .waitN _ s _ | .usingN _ s _ | .varN _ s _
  | .returnN _ s _ | .defN _ s _ | .initN _ s _ | .progN _ s _ | .linkN _ s _
  | .ifN _ s _ _ _ | .loopN _ s _ _ _ | .funcN _ s _ _ | .enumN _ s _ _
  | .rawFuncN _ s _ _ | .mlogN _ s _ => s

mutual

/-- The same node with every position replaced by `0` (to state
"identical trees up to positions"). -/
def erasePos : Node → Node
  | .root _ _ b => .root 0 0 (erasePosList b)
  | .token _ _ n => .token 0 0 n
  | .numeric _ _ v => .numeric 0 0 v
  | .strLit _ _ v => .strLit 0 0 v
  | .assignment _ _ a b => .assignment 0 0 (erasePos a) (erasePos b)
  | .listN _ _ es => .listN 0 0 (erasePosList es)
  | .call _ _ c a => .call 0 0 (erasePos c) (erasePosOpt a)
  | .functionDefinition _ _ c r => .functionDefinition 0 0 (erasePos c) (erasePosOpt r)
  | .breakN _ _ => .breakN 0 0
  | .continueN _ _ => .continueN 0 0
  | .endN _ _ => .endN 0 0
  | .stopN _ _ => .stopN 0 0
  | .importN _ _ e => .importN 0 0 (erasePosOpt e)
  | .waitN _ _ e => .waitN 0 0 (erasePosOpt e)
  | .usingN _ _ e => .usingN 0 0 (erasePosOpt e)
  | .varN _ _ e => .varN 0 0 (erasePosOpt e)
  | .returnN _ _ e => .returnN 0 0 (erasePosOpt e)
  | .defN _ _ b => .defN 0 0 (erasePosList b)
  | .initN _ _ b => .initN 0 0 (erasePosList b)
  | .progN _ _ b => .progN 0 0 (erasePosList b)
  | .linkN _ _ b => .linkN 0 0 (erasePosList b)
  | .ifN _ _ e b b2 => .ifN 0 0 (erasePosOpt e) (erasePosList b) (erasePosList b2)
  | .loopN _ _ e b b2 => .loopN 0 0 (erasePosOpt e) (erasePosList b) (erasePosList b2)
  | .funcN _ _ d b => .funcN 0 0 (erasePosOpt d) (erasePosList b)
  | .enumN _ _ d b => .enumN 0 0 (erasePosOpt d) (erasePosList b)
  | .rawFuncN _ _ d b => .rawFuncN 0 0 (erasePosOpt d) b
  | .mlogN _ _ b => .mlogN 0 0 b

def erasePosOpt : Option Node → Option Node
  | none => none
  | some n => some (erasePos n)

def erasePosList : List Node → List Node
  | [] => []
  | n :: t => erasePos n :: erasePosList t

end

/-! ## Errors (`mproc/parser/exceptions.py`)

The filename is a fixed parameter of a parse run and does not influence
control flow, so errors carry only the line, the symbol and the kind with
its format argument. -/

inductive ErrKind where
  /-- `MProcParseError`: `unexpected symbol "{}"` -/
  | parseError (arg : Str)
  /-- `MProcStructureError`: `unexpected flow operator` -/
  | structureError
  /-- `MProcInvalidFlowOperatorError` -/
  | invalidFlowOperator (arg : Str)
  /-- `MProcTokenExpectedError` -/
  | tokenExpected
  /-- `MProcEOFError`: `unexpected end of file` -/
  | eofError
  /-- `MProcInvalidStringLiteral` -/
  | invalidStringLiteral (arg : Str)
  deriving DecidableEq

structure Err where
  line : Nat
  symbol : Nat
  kind : ErrKind
  deriving DecidableEq

/-- The four position counters of the `Parser` object, as visible to the
context handlers (which never read further input themselves). -/
structure Pos where
  lineStart : Nat
  symbolStart : Nat
  lineEnd : Nat
  symbolEnd : Nat
  deriving DecidableEq

/-- `Parser.exception(...)`: located at `(line_start, symbol_start)`. -/
def Pos.exc (p : Pos) (k : ErrKind) : Err := ⟨p.lineStart, p.symbolStart, k⟩

/-- `Parser.exception_end(...)`: located at `(line_end, symbol_end)`. -/
def Pos.excEnd (p : Pos) (k : ErrKind) : Err := ⟨p.lineEnd, p.symbolEnd, k⟩

/-! ## Token classifier (`Parser.parse_token`) -/

/-- The base `parse_token` hands to `int()`: 16 for a `0x` prefix, 2 for
`0b`, otherwise 10. -/
def tokenBase (piece : Str) : Nat :=
  if ['0', 'x'].isPrefixOf piece then 16
  else if ['0', 'b'].isPrefixOf piece then 2
  else 10

/-- The argument `parse_token` hands to `float()`: one trailing `.` is
stripped (`piece[:-1] if piece.endswith(".") else piece`). -/
def dotStripped (piece : Str) : Str :=
  if ['.'].isSuffixOf piece then piece.dropLast else piece

/-- `Parser.parse_token`: string literal, integer (base by prefix), float
(with one trailing `.` stripped), otherwise identifier token; empty piece
raises `MProcTokenExpectedError`. -/
def parse_token (pos : Pos) (piece : Str) : Except Err Node :=
  if piece = [] then
    .error (pos.exc .tokenExpected)
  else if ['"'].isPrefixOf piece ∧ ['"'].isSuffixOf piece then
    .ok (.strLit pos.lineStart pos.symbolStart ((piece.drop 1).dropLast))
  else
    match pyIntOfStr piece (tokenBase piece) with
    | some z => .ok (.numeric pos.lineStart pos.symbolStart (.int z))
    | none =>
      match pyFloatOfStr (dotStripped piece) with
      | some f => .ok (.numeric pos.lineStart pos.symbolStart (.float f))
      | none => .ok (.token pos.lineStart pos.symbolStart piece)

/-! ## Source reader (`Parser.read_symbol`) -/

/-- Reader state: the remaining input together with the position counters
and the `inc_line` flag of the `Parser` object. -/
structure Reader where
  rest : Str
  lineStart : Nat
  lineEnd : Nat
  symbolStart : Nat
  symbolEnd : Nat
  incLine : Bool
  deriving DecidableEq

/-- Reader at the start of a parse run (`Parser.__init__`). -/
def Reader.init (input : Str) : Reader :=
  { rest := input, lineStart := 1, lineEnd := 1,
    symbolStart := 0, symbolEnd := 0, incLine := false }

def Reader.pos (r : Reader) : Pos :=
  ⟨r.lineStart, r.symbolStart, r.lineEnd, r.symbolEnd⟩

/-- `Parser.read_symbol`: one character (or the EOF marker `none`), with the
lazy line/column bookkeeping. -/
def read_symbol (r : Reader) : Option Char × Reader :=
  let c : Option Char := r.rest.head?
  let r₁ := if r.incLine then { r with lineEnd := r.lineEnd + 1, symbolEnd := 0 } else r
  let r₂ := if c.isSome then { r₁ with symbolEnd := r₁.symbolEnd + 1 } else r₁
  (c, { r₂ with rest := r.rest.tail, incLine := c = some '\n' })

theorem read_symbol_rest (r : Reader) : (read_symbol r).2.rest = r.rest.tail := rfl

theorem read_symbol_fst (r : Reader) : (read_symbol r).1 = r.rest.head? := rfl

theorem read_symbol_rest_lt (r : Reader) (c : Char)
    (h : (read_symbol r).1 = some c) : (read_symbol r).2.rest.length < r.rest.length := by
  cases hr : r.rest with
  | nil => rw [read_symbol_fst, hr] at h; simp at h
  | cons a t => rw [read_symbol_rest, hr]; simp

/-- The whitespace set used for head-space skipping. -/
def headWs (endlAsWs : Bool) : Str :=
  if endlAsWs then '\n' :: whitespace_set else whitespace_set

/-- `Parser.read_head_spaces`: skip leading whitespace (plus newlines when
`endl_as_whitespace`), moving the start position along.  The loop consumes
one character per step, so the caller's budget of `r.rest.length + 1` steps
never runs out; the fuel is purely a structural-recursion device. -/
def read_head_spaces (fuel : Nat) (endlAsWs : Bool) (r : Reader) : Option Char × Reader :=
  match fuel with
  | 0 => (none, r)
  | fuel + 1 =>
    let cr := read_symbol r
    let r'' := { cr.2 with symbolStart := cr.2.symbolEnd, lineStart := cr.2.lineEnd }
    match cr.1 with
    | none => (none, r'')
    | some ch =>
      if ch ∈ headWs endlAsWs then
        read_head_spaces fuel endlAsWs r''
      else (some ch, r'')

/-! ## Piece lexer (`Parser.read_piece`) -/

/-- Parameters the current context supplies to `Parser.read_piece`. -/
structure LexParams where
  delimiters : Str
  allowSpaces : Bool
  endlAsWs : Bool
  exactSymbols : Nat
  deriving DecidableEq

/-- Delimiter-set membership.  Python's delimiter sets all contain the EOF
marker `""` (including the comment-mode set `{""}` and the string-literal
set), so EOF is always a member. -/
def memDelim (c : Option Char) (ds : Str) : Bool :=
  match c with
  | none => true
  | some ch => ds.contains ch

/-- The delimiter value `read_piece` returns: Python uses `None` in
exact-symbols mode, `""` at EOF, and the delimiter character otherwise. -/
inductive PyDelim where
  | null
  | eof
  | chr (c : Char)
  deriving DecidableEq

def PyDelim.ofOpt : Option Char → PyDelim
  | none => .eof
  | some c => .chr c

/-- Exact-symbols mode: `for i in range(n): piece += self.read_symbol()`
(reading past EOF appends the empty string). -/
def readExact (n : Nat) (r : Reader) (acc : Str) : Str × Reader :=
  match n with
  | 0 => (acc, r)
  | n + 1 =>
    let cr := read_symbol r
    readExact n cr.2 (acc ++ cr.1.toList)

/-- String-literal sub-mode of the `read_piece` loop: with
`is_string_literal = True` the delimiter set is `{"\n", '"', ""}` and the
comment branches are disabled, so the loop appends each character and stops
on newline, `"` or EOF.  Each step consumes one character, so the caller's
budget of `r.rest.length + 1` steps never runs out. -/
def stringAccum (fuel : Nat) (c : Option Char) (r : Reader) (acc : Str) :
    Str × Option Char × Reader :=
  match fuel with
  | 0 => (acc, c, r)
  | fuel + 1 =>
    match c with
    | none => (acc, none, r)
    | some ch =>
      if ch = '\n' ∨ ch = '"' then (acc, some ch, r)
      else
        let cr := read_symbol r
        stringAccum fuel cr.1 cr.2 (acc ++ [ch])

/-- The normal-accumulation `while` loop of `read_piece`
(`is_string_literal = False`), including comment mode: `c` is the most
recently read character, `delims` the current delimiter set (replaced by
`{""}` in comment mode), `oldDelims` the context's original set.  Every
step either consumes a character or switches the comment flag it just
used, so the caller's budget of `3 * r.rest.length + 4` steps never runs
out. -/
def pieceLoop (fuel : Nat) (allowSpaces endlAsWs : Bool) (oldDelims : Str)
    (c : Option Char) (r : Reader) (piece : Str) (isComment : Bool)
    (delims : Str) : Str × Option Char × Reader :=
  match fuel with
  | 0 => (piece, c, r)
  | fuel + 1 =>
    if memDelim c delims then (piece, c, r)
    else
      match c with
      | none => (piece, none, r)
      | some ch =>
        if ch = '/' then
          let cr := read_symbol r
          pieceLoop fuel allowSpaces endlAsWs oldDelims cr.1 cr.2 piece true []
        else if ch = '\n' ∧ isComment then
          if memDelim (some '\n') oldDelims ∧ (¬endlAsWs ∨ piece ≠ []) then
            (piece, some '\n', r)
          else if allowSpaces then
            let cr := read_head_spaces (r.rest.length + 1) endlAsWs r
            pieceLoop fuel allowSpaces endlAsWs oldDelims cr.1 cr.2 piece false oldDelims
          else
            pieceLoop fuel allowSpaces endlAsWs oldDelims (some '\n') r piece false oldDelims
        else
          let piece' := if isComment then piece else piece ++ [ch]
          let cr := read_symbol r
          pieceLoop fuel allowSpaces endlAsWs oldDelims cr.1 cr.2 piece' isComment delims

/-- Result of `Parser.read_piece`. -/
structure LexOut where
  piece : Str
  delim : PyDelim
  reader : Reader
  deriving DecidableEq

/-- The line `read_piece` resets `line_start` to before reading. -/
def startLineOf (r : Reader) : Nat := r.lineEnd + (if r.incLine then 1 else 0)

/-- The column `read_piece` resets `symbol_start` to before reading. -/
def startSymOf (r : Reader) : Nat := if r.incLine then 1 else r.symbolEnd + 1

/-- String-literal mode of `read_piece`, entered when the first non-skipped
character is `"`: `r` is the reader state just after that quote was read
(its start fields hold the piece's start position), `delims` the context's
original delimiter set.  Accumulate up to `{"\n", '"', ""}`; a stop that is
not the closing quote raises the unterminated-literal error; after the
closing quote one more character is read and must lie in `delims`,
otherwise the invalid-string-literal error is raised; both errors carry
the piece's start position. -/
def readStringPiece (delims : Str) (r : Reader) : Except Err LexOut :=
  let cr₂ := read_symbol r
  let acc := stringAccum (cr₂.2.rest.length + 1) cr₂.1 cr₂.2 ['"']
  if acc.2.1 ≠ some '"' then
    -- string literals have to end with `"`
    .error ⟨acc.2.2.lineStart, acc.2.2.symbolStart, .eofError⟩
  else
    let piece := acc.1 ++ ['"']
    let cr₃ := read_symbol acc.2.2
    if memDelim cr₃.1 delims then
      .ok ⟨piece, .ofOpt cr₃.1, cr₃.2⟩
    else
      .error ⟨cr₃.2.lineStart, cr₃.2.symbolStart,
        .invalidStringLiteral (piece ++ cr₃.1.toList)⟩

/-- The start-counter reset at the top of `read_piece`. -/
def resetStart (r : Reader) : Reader :=
  { r with symbolStart := startSymOf r, lineStart := startLineOf r }

/-- `Parser.read_piece`. -/
def read_piece (p : LexParams) (r : Reader) : Except Err LexOut :=
  -- reset the counters
  let r := resetStart r
  if p.exactSymbols ≠ 0 then
    let pr := readExact p.exactSymbols r []
    .ok ⟨pr.1, .null, pr.2⟩
  else
    let cr := if p.allowSpaces then read_head_spaces (r.rest.length + 1) p.endlAsWs r
      else read_symbol r
    if cr.1 = some '"' then
      readStringPiece p.delimiters cr.2
    else
      let out := pieceLoop (3 * cr.2.rest.length + 4) p.allowSpaces p.endlAsWs
        p.delimiters cr.1 cr.2 [] false p.delimiters
      .ok ⟨out.1, .ofOpt out.2.1, out.2.2⟩

/-! ## Parse contexts (`mproc/parser/contexts.py`)

Each Python context class becomes a constructor carrying its instance
attributes.  The stack is a `List Ctx` with the top of the Python stack
(`stack[-1]`) at the head. -/

/-- The node classes block-closing words check with `isinstance`. -/
inductive BlockType where
  | prog | func | rawFunc | ifT | loop | defT | init | mlog | enum | link
  deriving DecidableEq

inductive Ctx where
  /-- `RootContext`; holds `root.body` (the `Root` node is created at
  line 1, symbol 1). -/
  | root (body : List Node)
  | skipEmptyLines
  | newStatement
  /-- `MLogEndContext` (a `NewStatementContext`). -/
  | mlogEnd
  /-- `SkipSpacesContext(token, endl_as_whitespace)`. -/
  | skipSpaces (token : Option Node) (endlAsWs : Bool)
  /-- `SearchForReturnContext` (a `SkipSpacesContext` with `-` added to the
  delimiters). -/
  | searchForReturn (token : Option Node) (endlAsWs : Bool)
  /-- `RightHandSideContext(lhs)`; `named` marks the
  `NamedArgumentRightHandSideContext` subclass. -/
  | rhs (lhs : Option Node) (named : Bool)
  | expectedFlowOp
  /-- `BlockEndOnlyContext` (an `ExpectedFlowOperatorContext`). -/
  | blockEndOnly
  | selfSufficient (content : Node)
  /-- `ExpressionAllowedFlowOperatorContext(content, required)`. -/
  | exprAllowed (content : Node) (required : Bool)
  | simpleBlock (content : Node)
  /-- `MLogBlockFlowOperatorContext` (a `SimpleBlockFlowOperatorContext`). -/
  | mlogBlock (content : Node)
  /-- `BlockEndFlowOperatorContext(content_type, name)`. -/
  | blockEnd (ty : BlockType) (name : Str)
  | blockWithExpr (content : Node) (body2 : Bool) (readingExpr : Bool)
  | bodySwitch (ty : BlockType) (name : Str)
  | functionOp (content : Node) (readingDef : Bool)
  /-- `RawFunctionFlowOperatorContext` (a `FunctionFlowOperatorContext`). -/
  | rawFunction (content : Node) (readingDef : Bool)
  | mustBeArrow (content : Option Node)
  | funcDef (content : Option Node)
  | mlogCtx
  /-- `ListContext(first)`; `isArg` marks the `ArgumentListContext`
  subclass. -/
  | listCtx (content : Node) (isArg : Bool)
  | callCtx (caller : Node)

/-- `isinstance(ctx, NewStatementContext)` (the `MLogEndContext` subclass
included). -/
def Ctx.isNewStatementKind : Ctx → Bool
  | .newStatement => true
  | .mlogEnd => true
  | _ => false

/-- `isinstance(n, ty)` for the block node classes. -/
def nodeIs (n : Node) (t : BlockType) : Bool :=
  match t, n with
  | .prog, .progN .. => true
  | .func, .funcN .. => true
  | .rawFunc, .rawFuncN .. => true
  | .ifT, .ifN .. => true
  | .loop, .loopN .. => true
  | .defT, .defN .. => true
  | .init, .initN .. => true
  | .mlog, .mlogN .. => true
  | .enum, .enumN .. => true
  | .link, .linkN .. => true
  | _, _ => false

/-- `Context.delimiters`. -/
def Context_delimiters : Str := whitespace_set ++ ['#', '\n', '=', ',', '(', ')']

/-- The lexer parameters each context class supplies (class attributes,
plus the instance-level `endl_as_whitespace` of `SkipSpacesContext`). -/
def Ctx.params : Ctx → LexParams
  | .root _ => ⟨Context_delimiters, true, false, 0⟩
  | .skipEmptyLines => ⟨Context_delimiters, true, false, 0⟩
  | .newStatement => ⟨Context_delimiters, true, false, 0⟩
  | .mlogEnd => ⟨Context_delimiters, true, false, 0⟩
  | .skipSpaces _ e => ⟨Context_delimiters, true, e, 0⟩
  | .searchForReturn _ e => ⟨Context_delimiters ++ ['-'], true, e, 0⟩
  | .rhs _ _ => ⟨Context_delimiters, true, true, 0⟩
  | .expectedFlowOp => ⟨Context_delimiters, false, false, 0⟩
  | .blockEndOnly => ⟨Context_delimiters, false, false, 0⟩
  | .selfSufficient _ => ⟨['\n'], true, false, 0⟩
  | .exprAllowed _ _ => ⟨Context_delimiters, true, false, 0⟩
  | .simpleBlock _ => ⟨['\n'], true, false, 0⟩
  | .mlogBlock _ => ⟨['\n'], true, false, 0⟩
  | .blockEnd _ _ => ⟨['\n'], true, false, 0⟩
  | .blockWithExpr _ _ _ => ⟨Context_delimiters, true, false, 0⟩
  | .bodySwitch _ _ => ⟨['\n'], true, false, 0⟩
  | .functionOp _ _ => ⟨Context_delimiters, true, false, 0⟩
  | .rawFunction _ _ => ⟨Context_delimiters, true, false, 0⟩
  | .mustBeArrow _ => ⟨Context_delimiters, true, false, 1⟩
  | .funcDef _ => ⟨Context_delimiters, true, true, 0⟩
  | .mlogCtx => ⟨['#'], false, false, 0⟩
  | .listCtx _ _ => ⟨Context_delimiters, true, true, 0⟩
  | .callCtx _ => ⟨Context_delimiters, true, true, 0⟩

/-- `hasattr(ctx, "content")` together with the attribute's value
(`none` inside the option means the attribute holds Python `None`). -/
def Ctx.contentAttr : Ctx → Option (Option Node)
  | .selfSufficient c => some (some c)
  | .exprAllowed c _ => some (some c)
  | .simpleBlock c => some (some c)
  | .mlogBlock c => some (some c)
  | .blockWithExpr c _ _ => some (some c)
  | .functionOp c _ => some (some c)
  | .rawFunction c _ => some (some c)
  | .mustBeArrow c => some c
  | .funcDef c => some c
  | .listCtx c _ => some (some c)
  | _ => none

/-- `node.expression = tok` (only ever reached for the node classes that
declare the field). -/
def setExpression (n : Node) (tok : Option Node) : Option Node :=
  match n with
  | .importN l s _ => some (.importN l s tok)
  | .waitN l s _ => some (.waitN l s tok)
  | .usingN l s _ => some (.usingN l s tok)
  | .varN l s _ => some (.varN l s tok)
  | .returnN l s _ => some (.returnN l s tok)
  | .ifN l s _ b b2 => some (.ifN l s tok b b2)
  | .loopN l s _ b b2 => some (.loopN l s tok b b2)
  | _ => none

/-- `node.definition = tok`. -/
def setDefinition (n : Node) (tok : Option Node) : Option Node :=
  match n with
  | .funcN l s _ b => some (.funcN l s tok b)
  | .enumN l s _ b => some (.enumN l s tok b)
  | .rawFuncN l s _ b => some (.rawFuncN l s tok b)
  | _ => none

/-- `node.body.append(x)` for the statement-list blocks. -/
def appendBody (n : Node) (x : Node) : Option Node :=
  match n with
  | .defN l s b => some (.defN l s (b ++ [x]))
  | .initN l s b => some (.initN l s (b ++ [x]))
  | .progN l s b => some (.progN l s (b ++ [x]))
  | .linkN l s b => some (.linkN l s (b ++ [x]))
  | .funcN l s d b => some (.funcN l s d (b ++ [x]))
  | .enumN l s d b => some (.enumN l s d (b ++ [x]))
  | _ => none

/-- `node.body += text` for the raw-body blocks. -/
def appendRaw (n : Node) (x : Str) : Option Node :=
  match n with
  | .mlogN l s b => some (.mlogN l s (b ++ x))
  | .rawFuncN l s d b => some (.rawFuncN l s d (b ++ x))
  | _ => none

/-- `If`/`Loop`: append to `body` or `body2` (`BlockWithExpression.append`,
which skips `None`). -/
def appendBody2 (n : Node) (x : Option Node) (second : Bool) : Option Node :=
  match x with
  | none => some n
  | some x =>
    match n with
    | .ifN l s e b b2 =>
      some (if second then .ifN l s e b (b2 ++ [x]) else .ifN l s e (b ++ [x]) b2)
    | .loopN l s e b b2 =>
      some (if second then .loopN l s e b (b2 ++ [x]) else .loopN l s e (b ++ [x]) b2)
    | _ => none

/-! ### Flow-operator dispatch tables (`ExpectedFlowOperatorContext`) -/

def self_sufficient_operators : List (Str × (Nat → Nat → Node)) :=
  [("break".toList, .breakN), ("continue".toList, .continueN),
   ("end".toList, .endN), ("stop".toList, .stopN)]

def expression_required_operators : List (Str × (Nat → Nat → Node)) :=
  [("import".toList, (.importN · · none)), ("wait".toList, (.waitN · · none)),
   ("using".toList, (.usingN · · none)), ("var".toList, (.varN · · none))]

def expression_allowed_operators : List (Str × (Nat → Nat → Node)) :=
  [("return".toList, (.returnN · · none))]

def simple_block_operators : List (Str × (Nat → Nat → Node)) :=
  [("def".toList, (.defN · · [])), ("init".toList, (.initN · · [])),
   ("prog".toList, (.progN · · [])), ("link".toList, (.linkN · · []))]

def block_end_operators : List (Str × BlockType) :=
  [("endprog".toList, .prog), ("endfunc".toList, .func),
   ("endrawfunc".toList, .rawFunc), ("endif".toList, .ifT),
   ("endloop".toList, .loop), ("enddef".toList, .defT),
   ("endinit".toList, .init), ("endmlog".toList, .mlog),
   ("endenum".toList, .enum), ("endlink".toList, .link)]

def block_with_expression_operators : List (Str × (Nat → Nat → Node)) :=
  [("if".toList, (.ifN · · none [] [])), ("loop".toList, (.loopN · · none [] []))]

def body_switch_operators : List (Str × BlockType) :=
  [("else".toList, .ifT), ("after".toList, .loop)]

def function_operators : List (Str × (Nat → Nat → Node)) :=
  [("func".toList, (.funcN · · none [])), ("enum".toList, (.enumN · · none []))]

def raw_func_operators : List (Str × (Nat → Nat → Node)) :=
  [("rawfunc".toList, (.rawFuncN · · none []))]

def mlog_operators : List (Str × (Nat → Nat → Node)) :=
  [("mlog".toList, (.mlogN · · []))]

/-- The context `ExpectedFlowOperatorContext.handle_piece` pushes for a
flow-operator word, with nodes created at
`(line_start, symbol_start - 1)`; `none` for an unknown word. -/
def efocNewCtx (pos : Pos) (piece : Str) : Option Ctx :=
  let l := pos.lineStart
  let s := pos.symbolStart - 1
  match self_sufficient_operators.lookup piece with
  | some mk => some (.selfSufficient (mk l s))
  | none =>
  match expression_required_operators.lookup piece with
  | some mk => some (.exprAllowed (mk l s) true)
  | none =>
  match expression_allowed_operators.lookup piece with
  | some mk => some (.exprAllowed (mk l s) false)
  | none =>
  match simple_block_operators.lookup piece with
  | some mk => some (.simpleBlock (mk l s))
  | none =>
  match block_end_operators.lookup piece with
  | some ty => some (.blockEnd ty piece)
  | none =>
  match block_with_expression_operators.lookup piece with
  | some mk => some (.blockWithExpr (mk l s) false true)
  | none =>
  match body_switch_operators.lookup piece with
  | some ty => some (.bodySwitch ty piece)
  | none =>
  match function_operators.lookup piece with
  | some mk => some (.functionOp (mk l s) true)
  | none =>
  match raw_func_operators.lookup piece with
  | some mk => some (.rawFunction (mk l s) true)
  | none =>
  match mlog_operators.lookup piece with
  | some mk => some (.mlogBlock (mk l s))
  | none => none

/-- Format argument Python would interpolate for a delimiter. -/
def PyDelim.arg : PyDelim → Str
  | .chr c => [c]
  | .eof => []
  | .null => "None".toList

/-- `delimiter in whitespace_set | set("\n") | {""}`. -/
def PyDelim.isWsNlEof : PyDelim → Bool
  | .eof => true
  | .chr c => whitespace_set.contains c ∨ c = '\n'
  | .null => false

/-- Result of one handler invocation. -/
inductive HR where
  /-- Control returns to the read loop with this stack. -/
  | ok (stack : List Ctx)
  /-- The root context popped itself: the parse is over. -/
  | finished (tree : Node)
  /-- An `MProcParseError` was raised. -/
  | err (e : Err)
  /-- A non-`MProcParseError` Python exception (failed `assert`,
  `TypeError`, `AttributeError`, `IndexError`): the parse run crashes. -/
  | crash
  | fuelOut

/-- `self.token or token`: dataclass instances are truthy, so this is the
first non-`None` of the two. -/
def pyOr (a b : Option Node) : Option Node :=
  match a with
  | some x => some x
  | none => b

/-- `ListContext.append` (skips `None`) and `ArgumentListContext.append`
(which splices a `List` argument's elements instead of nesting). -/
def listAppend (content : Node) (x : Option Node) (isArg : Bool) : Option Node :=
  match content with
  | .listN l s es =>
    match x with
    | none => some (.listN l s es)
    | some y =>
      if isArg then
        match y with
        | .listN _ _ es₂ => some (.listN l s (es ++ es₂))
        | _ => some (.listN l s (es ++ [y]))
      else some (.listN l s (es ++ [y]))
  | _ => none

/-- Worklist item: which handler runs next, with its stack and payload. -/
inductive Job where
  | piece (stack : List Ctx) (piece : Str) (delim : PyDelim)
  | child (stack : List Ctx) (content : Option Node) (delim : PyDelim)
  | save (stack : List Ctx) (token : Option Node) (delim : PyDelim)

/-- One handler invocation: a terminal result, or the tail call it makes. -/
inductive StepRes where
  | done (r : HR)
  | next (j : Job)

/-- `handle_piece` of the context at the head of the stack. -/
def stepPiece (pos : Pos) (stack : List Ctx) (piece : Str)
    (delim : PyDelim) : StepRes :=
    match stack with
    | [] => .done .crash
    | ctx :: rest =>
      match ctx with
      | .root body =>
        if delim = .eof ∧ piece = [] then
          .done (.finished (.root 1 1 body))
        else
          .next (Job.piece (.skipEmptyLines :: stack) piece delim)
      | .skipEmptyLines =>
        if piece ≠ [] ∨ (delim ≠ .eof ∧ delim ≠ .chr '\n') then
          .next (Job.piece (.newStatement :: rest) piece delim)
        else if delim = .eof then
          .done (.ok rest)
        else
          .done (.ok stack)
      | .newStatement =>
        if delim = .chr '#' then
          if piece ≠ [] then .done (.err (pos.exc .structureError))
          else .done (.ok (.expectedFlowOp :: stack))
        else
          match parse_token pos piece with
          | .error e => .done (.err e)
          | .ok token =>
            match delim with
            | .chr '\n' => .next (Job.save stack (some token) .null)
            | .eof => .next (Job.save stack (some token) .eof)
            | .chr '=' => .done (.ok (.rhs (some token) false :: stack))
            | .chr ')' => .done (.err (pos.excEnd (.parseError [')'])))
            | .chr ',' =>
              .done (.ok (.listCtx (.listN token.line token.symbol [token]) false :: stack))
            | .chr '(' => .done (.ok (.callCtx token :: stack))
            | .chr c =>
              if whitespace_set.contains c then
                .done (.ok (.skipSpaces (some token) false :: stack))
              else .done (.ok stack)
            | .null => .done (.ok stack)
      | .mlogEnd =>
        -- `assert delimiter == "#"`, then push `BlockEndOnlyContext`
        if delim = .chr '#' then .done (.ok (.blockEndOnly :: stack)) else .done .crash
      | .skipSpaces token _ =>
        if piece ≠ [] ∧ token.isSome then .done (.err (pos.exc (.parseError piece)))
        else if delim = .chr '#' then .done (.err (pos.excEnd .structureError))
        else
          match (if piece ≠ [] then (parse_token pos piece).map some else .ok none) with
          | .error e => .done (.err e)
          | .ok tok2 => .next (Job.child rest (pyOr token tok2) delim)
      | .searchForReturn token _ =>
        if delim = .chr '-' then
          if piece ≠ [] then .done (.err (pos.exc (.parseError piece)))
          else .done (.ok (.mustBeArrow token :: rest))
        else
          -- `super().handle_piece` (`SkipSpacesContext`)
          if piece ≠ [] ∧ token.isSome then .done (.err (pos.exc (.parseError piece)))
          else if delim = .chr '#' then .done (.err (pos.excEnd .structureError))
          else
            match (if piece ≠ [] then (parse_token pos piece).map some else .ok none) with
            | .error e => .done (.err e)
            | .ok tok2 => .next (Job.child rest (pyOr token tok2) delim)
      | .rhs lhs named =>
        match (if piece ≠ [] then (parse_token pos piece).map some else .ok none) with
        | .error e => .done (.err e)
        | .ok token =>
          match delim with
          | .chr '\n' | .chr ')' | .eof => .next (Job.save stack token delim)
          | .chr '#' => .done (.err (pos.excEnd .structureError))
          | .chr '=' => .done (.err (pos.excEnd (.parseError ['='])))
          | .chr ',' =>
            if named then
              -- `NamedArgumentRightHandSideContext.create_list` (no `None`
              -- check in `RightHandSideContext.handle_piece` is reached
              -- first: it checks before calling `create_list`)
              match token with
              | none => .done (.err (pos.exc .tokenExpected))
              | some tok =>
                match lhs with
                | none => .done .crash
                | some lh =>
                  .done (.ok (.listCtx
                    (.listN lh.line lh.symbol
                      [.assignment lh.line lh.symbol lh tok]) true :: rest))
            else
              match token with
              | none => .done (.err (pos.exc .tokenExpected))
              | some tok =>
                .done (.ok (.listCtx (.listN tok.line tok.symbol [tok]) false :: stack))
          | .chr '(' =>
            match token with
            | none => .done (.err (pos.exc .tokenExpected))
            | some tok => .done (.ok (.callCtx tok :: stack))
          | .chr c =>
            if whitespace_set.contains c then
              .done (.ok (.skipSpaces token false :: stack))
            else .done (.ok stack)
          | .null => .done (.ok stack)
      | .expectedFlowOp =>
        if ¬ delim.isWsNlEof then .done (.err (pos.excEnd (.parseError delim.arg)))
        else
          match efocNewCtx pos piece with
          | none => .done (.err (pos.exc (.invalidFlowOperator piece)))
          | some newCtx =>
            if delim = .chr '\n' ∨ delim = .eof then
              .next (Job.piece (newCtx :: rest) [] delim)
            else .done (.ok (newCtx :: rest))
      | .blockEndOnly =>
        if (block_end_operators.lookup piece).isNone then
          .done (.err (pos.exc (.parseError ('#' :: piece))))
        else
          -- `super().handle_piece` (`ExpectedFlowOperatorContext`)
          if ¬ delim.isWsNlEof then .done (.err (pos.excEnd (.parseError delim.arg)))
          else
            match efocNewCtx pos piece with
            | none => .done (.err (pos.exc (.invalidFlowOperator piece)))
            | some newCtx =>
              if delim = .chr '\n' ∨ delim = .eof then
                .next (Job.piece (newCtx :: rest) [] delim)
              else .done (.ok (newCtx :: rest))
      | .selfSufficient content =>
        if piece ≠ [] then .done (.err (pos.exc (.parseError piece)))
        else .next (Job.save stack (some content) delim)
      | .exprAllowed _ required =>
        match (if piece ≠ [] then (parse_token pos piece).map some else .ok none) with
        | .error e => .done (.err e)
        | .ok token =>
          if token.isNone ∧ required then .done (.err (pos.exc .tokenExpected))
          else
            match delim with
            | .chr '\n' | .eof => .next (Job.save stack token delim)
            | .chr ')' | .chr '#' => .done (.err (pos.excEnd (.parseError delim.arg)))
            | .chr '=' =>
              match token with
              | none => .done (.err (pos.exc .tokenExpected))
              | some tok => .done (.ok (.rhs (some tok) false :: stack))
            | .chr ',' =>
              match token with
              | none => .done (.err (pos.exc .tokenExpected))
              | some tok =>
                .done (.ok (.listCtx (.listN tok.line tok.symbol [tok]) false :: stack))
            | .chr '(' =>
              match token with
              | none => .done (.err (pos.exc .tokenExpected))
              | some tok => .done (.ok (.callCtx tok :: stack))
            | .chr c =>
              if whitespace_set.contains c then
                .done (.ok (.skipSpaces token false :: stack))
              else .done (.ok stack)
            | .null => .done (.ok stack)
      | .simpleBlock _ =>
        if piece ≠ [] then .done (.err (pos.exc (.parseError piece)))
        else if delim = .eof then .done (.err (pos.exc .eofError))
        else .done (.ok (.skipEmptyLines :: stack))
      | .mlogBlock _ =>
        if piece ≠ [] then .done (.err (pos.exc (.parseError piece)))
        else if delim = .eof then .done (.err (pos.exc .eofError))
        else .done (.ok (.mlogCtx :: stack))
      | .blockEnd ty name =>
        if piece ≠ [] then .done (.err (pos.exc (.parseError piece)))
        else
          match rest with
          | [] => .done .crash
          | nsc :: rest₂ =>
            -- `assert isinstance(nsc, NewStatementContext)`
            if ¬ nsc.isNewStatementKind then .done .crash
            else
              match rest₂ with
              | [] => .done .crash
              | blockCtx :: _ =>
                match blockCtx.contentAttr with
                | some (some content) =>
                  if nodeIs content ty then
                    .next (Job.save rest₂ (some content) delim)
                  else .done (.err (pos.exc (.parseError ('#' :: name))))
                | _ => .done (.err (pos.exc (.parseError ('#' :: name))))
      | .blockWithExpr content body2 readingExpr =>
        match parse_token pos piece with
        | .error e => .done (.err e)
        | .ok token =>
          match delim with
          | .eof => .done (.err (pos.exc .eofError))
          | .chr '\n' =>
            match setExpression content (some token) with
            | none => .done .crash
            | some content' =>
              .done (.ok (.skipEmptyLines :: .blockWithExpr content' body2 false :: rest))
          | .chr '#' => .done (.err (pos.excEnd .structureError))
          | .chr '=' | .chr ')' => .done (.err (pos.excEnd (.parseError delim.arg)))
          | .chr ',' =>
            .done (.ok (.listCtx (.listN token.line token.symbol [token]) false :: stack))
          | .chr '(' => .done (.ok (.callCtx token :: stack))
          | .chr c =>
            if whitespace_set.contains c then
              .done (.ok (.skipSpaces (some token) false :: stack))
            else .done (.ok stack)
          | .null => .done (.ok stack)
      | .bodySwitch ty name =>
        if piece ≠ [] then .done (.err (pos.exc (.parseError piece)))
        else
          match rest with
          | [] => .done .crash
          | nsc :: rest₂ =>
            if ¬ nsc.isNewStatementKind then .done .crash
            else
              match rest₂ with
              | [] => .done .crash
              | blockCtx :: rest₃ =>
                match blockCtx with
                | .blockWithExpr content body2 readingExpr =>
                  if nodeIs content ty ∧ body2 = false then
                    .next (Job.child
                      (.blockWithExpr content true readingExpr :: rest₃) none .null)
                  else .done (.err (pos.exc (.parseError ('#' :: name))))
                | _ => .done (.err (pos.exc (.parseError ('#' :: name))))
      | .functionOp content readingDef =>
        match parse_token pos piece with
        | .error e => .done (.err e)
        | .ok token =>
          match delim with
          | .eof => .done (.err (pos.exc .eofError))
          | .chr '\n' =>
            match setDefinition content (some token) with
            | none => .done .crash
            | some content' =>
              .done (.ok (.skipEmptyLines :: .functionOp content' false :: rest))
          | .chr '#' => .done (.err (pos.excEnd .structureError))
          | .chr '=' | .chr ')' => .done (.err (pos.excEnd (.parseError delim.arg)))
          | .chr ',' =>
            .done (.ok (.listCtx (.listN token.line token.symbol [token]) false :: stack))
          | .chr '(' => .done (.ok (.callCtx token :: stack))
          | .chr c =>
            if whitespace_set.contains c then
              .done (.ok (.skipSpaces (some token) false :: stack))
            else .done (.ok stack)
          | .null => .done (.ok stack)
      | .rawFunction content readingDef =>
        match parse_token pos piece with
        | .error e => .done (.err e)
        | .ok token =>
          match delim with
          | .eof => .done (.err (pos.exc .eofError))
          | .chr '\n' =>
            match setDefinition content (some token) with
            | none => .done .crash
            | some content' =>
              -- `read_statement` pushes `MLogContext`
              .done (.ok (.mlogCtx :: .rawFunction content' false :: rest))
          | .chr '#' => .done (.err (pos.excEnd .structureError))
          | .chr '=' | .chr ')' => .done (.err (pos.excEnd (.parseError delim.arg)))
          | .chr ',' =>
            .done (.ok (.listCtx (.listN token.line token.symbol [token]) false :: stack))
          | .chr '(' => .done (.ok (.callCtx token :: stack))
          | .chr c =>
            if whitespace_set.contains c then
              .done (.ok (.skipSpaces (some token) false :: stack))
            else .done (.ok stack)
          | .null => .done (.ok stack)
      | .mustBeArrow content =>
        if piece ≠ ['>'] then .done (.err (pos.exc (.parseError ('-' :: piece))))
        else .done (.ok (.funcDef content :: rest))
      | .funcDef content =>
        match parse_token pos piece with
        | .error e => .done (.err e)
        | .ok token =>
          match delim with
          | .chr '\n' | .eof => .next (Job.save stack (some token) delim)
          | .chr '#' => .done (.err (pos.excEnd .structureError))
          | .chr '=' | .chr ')' => .done (.err (pos.excEnd (.parseError delim.arg)))
          | .chr ',' =>
            .done (.ok (.listCtx (.listN token.line token.symbol [token]) false :: stack))
          | .chr '(' => .done (.ok (.callCtx token :: stack))
          | .chr c =>
            if whitespace_set.contains c then
              .done (.ok (.skipSpaces (some token) false :: stack))
            else .done (.ok stack)
          | .null => .done (.ok stack)
      | .mlogCtx =>
        if delim = .eof then .done (.err (pos.exc .eofError))
        else
          -- the last line of the piece must hold only whitespace
          let lastLine := (piece.reverse.takeWhile (· ≠ '\n')).reverse
          if pyStrip lastLine ≠ [] then .done (.err (pos.excEnd .structureError))
          else
            match rest with
            | [] => .done .crash
            | parent :: rest₂ =>
              match parent with
              | .mlogBlock content =>
                match appendRaw content piece with
                | none => .done .crash
                | some content' =>
                  .next (Job.piece
                    (.mlogEnd :: .mlogBlock content' :: rest₂) [] delim)
              | .rawFunction content readingDef =>
                match appendRaw content piece with
                | none => .done .crash
                | some content' =>
                  .next (Job.piece
                    (.mlogEnd :: .rawFunction content' readingDef :: rest₂) [] delim)
              | _ => .done .crash
      | .listCtx content isArg =>
        match (if piece ≠ [] then (parse_token pos piece).map some else .ok none) with
        | .error e => .done (.err e)
        | .ok token =>
          match delim with
          | .chr '\n' | .chr ')' | .eof => .next (Job.save stack token delim)
          | .chr ',' =>
            match listAppend content token isArg with
            | none => .done .crash
            | some content' => .done (.ok (.listCtx content' isArg :: rest))
          | .chr '#' => .done (.err (pos.excEnd .structureError))
          | .chr '(' =>
            match token with
            | none => .done (.err (pos.exc .tokenExpected))
            | some tok => .done (.ok (.callCtx tok :: stack))
          | .chr '=' =>
            if isArg then
              -- `ArgumentListContext.create_assignment`
              .done (.ok (.rhs token true :: stack))
            else
              -- `ListContext.create_assignment`: append, pop, push RHS with
              -- the list as left-hand side
              match listAppend content token isArg with
              | none => .done .crash
              | some content' => .done (.ok (.rhs (some content') false :: rest))
          | .chr c =>
            if whitespace_set.contains c then
              -- `ListContext.skip_spaces`: append, then carry no token
              match listAppend content token isArg with
              | none => .done .crash
              | some content' =>
                .done (.ok (.skipSpaces none false :: .listCtx content' isArg :: rest))
            else .done (.ok stack)
          | .null => .done (.ok stack)
      | .callCtx caller =>
        match (if piece ≠ [] then (parse_token pos piece).map some else .ok none) with
        | .error e => .done (.err e)
        | .ok token =>
          match delim with
          | .chr ')' => .next (Job.save stack token .null)
          | .chr '#' => .done (.err (pos.excEnd .structureError))
          | .chr '=' =>
            -- `CallContext.create_assignment`
            match token with
            | none => .done (.err (pos.exc .tokenExpected))
            | some tok => .done (.ok (.rhs (some tok) true :: stack))
          | .chr ',' =>
            -- `CallContext.create_list`
            match token with
            | none => .done (.err (pos.exc .tokenExpected))
            | some tok =>
              .done (.ok (.listCtx (.listN tok.line tok.symbol [tok]) true :: stack))
          | .chr '(' =>
            match token with
            | none => .done (.err (pos.exc .tokenExpected))
            | some tok => .done (.ok (.callCtx tok :: stack))
          | .eof => .done (.err (pos.exc .eofError))
          | .chr c =>
            if whitespace_set.contains c ∨ c = '\n' then
              .done (.ok (.skipSpaces token true :: stack))
            else .done (.ok stack)
          | .null => .done (.ok stack)

/-- `handle_child_content` of the context at the head of the stack. -/
def stepChild (pos : Pos) (stack : List Ctx)
    (content : Option Node) (delim : PyDelim) : StepRes :=
    match stack with
    | [] => .done .crash
    | ctx :: rest =>
      match ctx with
      | .root body =>
        match content with
        | none => .done .crash
        | some c =>
          if delim ≠ .eof then
            .done (.ok (.skipEmptyLines :: .root (body ++ [c]) :: rest))
          else
            match rest with
            | [] => .done (.finished (.root 1 1 (body ++ [c])))
            | _ => .done (.ok rest)
      | .skipEmptyLines => .done (.ok stack)
      | .newStatement | .mlogEnd =>
        match delim with
        | .null => .done (.ok (.skipSpaces content false :: stack))
        | .chr '\n' => .next (Job.save stack content .null)
        | .eof => .next (Job.save stack content .eof)
        | .chr '=' =>
          match content with
          | none => .done (.err (pos.exc .tokenExpected))
          | some c => .done (.ok (.rhs (some c) false :: stack))
        | .chr ',' =>
          match content with
          | none => .done (.err (pos.exc .tokenExpected))
          | some c => .done (.ok (.listCtx (.listN c.line c.symbol [c]) false :: stack))
        | .chr ')' => .done (.err (pos.excEnd (.parseError [')'])))
        | .chr '(' =>
          match content with
          | none => .done (.err (pos.exc .tokenExpected))
          | some c => .done (.ok (.callCtx c :: stack))
        | .chr _ => .done (.ok stack)
      | .rhs lhs named =>
        match delim with
        | .null => .done (.ok (.skipSpaces content false :: stack))
        | .chr '\n' | .eof =>
          if delim = .chr '\n' ∧ content.isNone then
            -- blank first line: switch to skipping newlines as whitespace
            .done (.ok (.skipSpaces none true :: stack))
          else
            .next (Job.save stack content delim)
        | .chr '=' | .chr ')' => .done (.err (pos.excEnd (.parseError delim.arg)))
        | .chr ',' =>
          match content with
          | none => .done (.err (pos.exc .tokenExpected))
          | some c =>
            if named then
              match lhs with
              | none => .done .crash
              | some lh =>
                .done (.ok (.listCtx
                  (.listN lh.line lh.symbol
                    [.assignment lh.line lh.symbol lh c]) true :: rest))
            else
              .done (.ok (.listCtx (.listN c.line c.symbol [c]) false :: stack))
        | .chr '(' =>
          match content with
          | none => .done (.err (pos.exc .tokenExpected))
          | some c => .done (.ok (.callCtx c :: stack))
        | .chr _ => .done (.ok stack)
      | .exprAllowed _ _ =>
        match delim with
        | .null => .done (.ok (.skipSpaces content false :: stack))
        | .chr '\n' | .eof => .next (Job.save stack content delim)
        | .chr ')' => .done (.err (pos.excEnd (.parseError [')'])))
        | .chr '=' =>
          match content with
          | none => .done (.err (pos.exc .tokenExpected))
          | some c => .done (.ok (.rhs (some c) false :: stack))
        | .chr ',' =>
          match content with
          | none => .done (.err (pos.exc .tokenExpected))
          | some c => .done (.ok (.listCtx (.listN c.line c.symbol [c]) false :: stack))
        | .chr '(' =>
          match content with
          | none => .done (.err (pos.exc .tokenExpected))
          | some c => .done (.ok (.callCtx c :: stack))
        | .chr _ => .done (.ok stack)
      | .simpleBlock content₀ =>
        match delim with
        | .null =>
          match content with
          | none => .done .crash
          | some c =>
            match appendBody content₀ c with
            | none => .done .crash
            | some content' =>
              .done (.ok (.skipEmptyLines :: .simpleBlock content' :: rest))
        | .eof => .done (.err (pos.exc .eofError))
        | _ => .done (.ok (.skipEmptyLines :: stack))
      | .mlogBlock _ =>
        match delim with
        | .null => .done .crash
        | .eof => .done (.err (pos.exc .eofError))
        | _ => .done (.ok (.mlogCtx :: stack))
      | .blockWithExpr content₀ body2 readingExpr =>
        match delim with
        | .null =>
          if readingExpr then .done (.ok (.skipSpaces content false :: stack))
          else
            match appendBody2 content₀ content body2 with
            | none => .done .crash
            | some content' =>
              .done (.ok (.skipEmptyLines :: .blockWithExpr content' body2 readingExpr :: rest))
        | .eof => .done (.err (pos.exc .eofError))
        | .chr '\n' =>
          match setExpression content₀ content with
          | none => .done .crash
          | some content' =>
            .done (.ok (.skipEmptyLines :: .blockWithExpr content' body2 false :: rest))
        | .chr '=' | .chr ')' => .done (.err (pos.excEnd (.parseError delim.arg)))
        | .chr ',' =>
          match content with
          | none => .done (.err (pos.exc .tokenExpected))
          | some c => .done (.ok (.listCtx (.listN c.line c.symbol [c]) false :: stack))
        | .chr '(' =>
          match content with
          | none => .done (.err (pos.exc .tokenExpected))
          | some c => .done (.ok (.callCtx c :: stack))
        | .chr _ => .done (.ok stack)
      | .functionOp content₀ readingDef =>
        match delim with
        | .null =>
          if readingDef then
            .done (.ok (.searchForReturn content false :: stack))
          else
            match content with
            | none => .done .crash
            | some c =>
              match appendBody content₀ c with
              | none => .done .crash
              | some content' =>
                .done (.ok (.skipEmptyLines :: .functionOp content' readingDef :: rest))
        | .eof => .done (.err (pos.exc .eofError))
        | .chr '\n' =>
          match setDefinition content₀ content with
          | none => .done .crash
          | some content' =>
            .done (.ok (.skipEmptyLines :: .functionOp content' false :: rest))
        | .chr '=' | .chr ')' => .done (.err (pos.excEnd (.parseError delim.arg)))
        | .chr ',' =>
          match content with
          | none => .done (.err (pos.exc .tokenExpected))
          | some c => .done (.ok (.listCtx (.listN c.line c.symbol [c]) false :: stack))
        | .chr '(' =>
          match content with
          | none => .done (.err (pos.exc .tokenExpected))
          | some c => .done (.ok (.callCtx c :: stack))
        | .chr _ => .done (.ok stack)
      | .rawFunction content₀ readingDef =>
        match delim with
        | .null =>
          if readingDef then
            .done (.ok (.searchForReturn content false :: stack))
          else
            -- `RawFunctionFlowOperatorContext.append` adds a string body:
            -- a tree node here would be a Python `TypeError`
            .done .crash
        | .eof => .done (.err (pos.exc .eofError))
        | .chr '\n' =>
          match setDefinition content₀ content with
          | none => .done .crash
          | some content' =>
            .done (.ok (.mlogCtx :: .rawFunction content' false :: rest))
        | .chr '=' | .chr ')' => .done (.err (pos.excEnd (.parseError delim.arg)))
        | .chr ',' =>
          match content with
          | none => .done (.err (pos.exc .tokenExpected))
          | some c => .done (.ok (.listCtx (.listN c.line c.symbol [c]) false :: stack))
        | .chr '(' =>
          match content with
          | none => .done (.err (pos.exc .tokenExpected))
          | some c => .done (.ok (.callCtx c :: stack))
        | .chr _ => .done (.ok stack)
      | .funcDef _ =>
        match delim with
        | .null =>
          -- `if delimiter is None: self.skip_spaces(content)` falls through
          -- into `if delimiter in "\n"`, a `TypeError` on `None`
          .done .crash
        | .chr '\n' | .eof => .next (Job.save stack content delim)
        | .chr '=' | .chr ')' => .done (.err (pos.excEnd (.parseError delim.arg)))
        | .chr ',' =>
          match content with
          | none => .done (.err (pos.exc .tokenExpected))
          | some c => .done (.ok (.listCtx (.listN c.line c.symbol [c]) false :: stack))
        | .chr '(' =>
          match content with
          | none => .done (.err (pos.exc .tokenExpected))
          | some c => .done (.ok (.callCtx c :: stack))
        | .chr _ => .done (.ok stack)
      | .listCtx content₀ isArg =>
        match delim with
        | .null =>
          match listAppend content₀ content isArg with
          | none => .done .crash
          | some content' =>
            .done (.ok (.skipSpaces none false :: .listCtx content' isArg :: rest))
        | .chr ')' | .eof => .next (Job.save stack content delim)
        | .chr ',' =>
          match listAppend content₀ content isArg with
          | none => .done .crash
          | some content' => .done (.ok (.listCtx content' isArg :: rest))
        | .chr '(' =>
          match content with
          | none => .done (.err (pos.exc .tokenExpected))
          | some c => .done (.ok (.callCtx c :: stack))
        | .chr '=' =>
          if isArg then .done (.ok (.rhs content true :: stack))
          else
            match listAppend content₀ content isArg with
            | none => .done .crash
            | some content' => .done (.ok (.rhs (some content') false :: rest))
        | .chr '\n' => .next (Job.save stack content delim)
        | .chr _ => .done (.ok stack)
      | .callCtx _ =>
        match delim with
        | .null => .done (.ok (.skipSpaces content true :: stack))
        | .chr ')' => .next (Job.save stack content .null)
        | .chr '#' => .done (.err (pos.excEnd .structureError))
        | .chr '\n' => .done (.ok (.skipSpaces content true :: stack))
        | .chr '=' =>
          match content with
          | none => .done (.err (pos.exc .tokenExpected))
          | some c => .done (.ok (.rhs (some c) true :: stack))
        | .chr ',' =>
          match content with
          | none => .done (.err (pos.exc .tokenExpected))
          | some c => .done (.ok (.listCtx (.listN c.line c.symbol [c]) true :: stack))
        | .chr '(' =>
          match content with
          | none => .done (.err (pos.exc .tokenExpected))
          | some c => .done (.ok (.callCtx c :: stack))
        | .eof => .done (.err (pos.exc .eofError))
        | .chr _ => .done (.ok stack)
      | .skipSpaces _ _ | .searchForReturn _ _ | .expectedFlowOp
      | .blockEndOnly | .selfSufficient _ | .blockEnd _ _ | .bodySwitch _ _
      | .mustBeArrow _ | .mlogCtx =>
        -- `assert 0`: these contexts may not have children
        .done .crash

/-- `save_statement` of the context at the head of the stack (with the
per-class overrides). -/
def stepSave (pos : Pos) (stack : List Ctx)
    (token : Option Node) (delim : PyDelim) : StepRes :=
    match stack with
    | [] => .done .crash
    | ctx :: rest =>
      match ctx with
      | .rhs lhs _ =>
        match token with
        | none => .done (.err (pos.exc .tokenExpected))
        | some tok =>
          match lhs with
          | none => .done .crash
          | some lh =>
            .next (Job.child rest
              (some (.assignment lh.line lh.symbol lh tok)) delim)
      | .funcDef content =>
        match content with
        | none => .done .crash
        | some c =>
          .next (Job.child rest
            (some (.functionDefinition c.line c.symbol c token)) delim)
      | .listCtx content isArg =>
        match listAppend content token isArg with
        | none => .done .crash
        | some content' => .next (Job.child rest (some content') delim)
      | .callCtx caller =>
        .next (Job.child rest
          (some (.call caller.line caller.symbol caller token)) delim)
      | .exprAllowed content _ =>
        match setExpression content token with
        | none => .done .crash
        | some content' => .next (Job.child rest (some content') delim)
      | _ => .next (Job.child rest token delim)

/-- Runs handler jobs to completion, one unit of fuel per handler
invocation (the call depth of the Python handler recursion). -/
def handleRun : Nat → Pos → Job → HR
  | 0, _, _ => .fuelOut
  | fuel + 1, pos, job =>
    match
      (match job with
       | .piece stack piece delim => stepPiece pos stack piece delim
       | .child stack content delim => stepChild pos stack content delim
       | .save stack token delim => stepSave pos stack token delim) with
    | .done r => r
    | .next j => handleRun fuel pos j

/-- `handle_piece` of the context at the head of the stack. -/
def handlePiece (fuel : Nat) (pos : Pos) (stack : List Ctx) (piece : Str)
    (delim : PyDelim) : HR :=
  handleRun fuel pos (.piece stack piece delim)

/-- `handle_child_content` of the context at the head of the stack. -/
def handleChildContent (fuel : Nat) (pos : Pos) (stack : List Ctx)
    (content : Option Node) (delim : PyDelim) : HR :=
  handleRun fuel pos (.child stack content delim)

/-- `save_statement` of the context at the head of the stack (with the
per-class overrides). -/
def saveStatement (fuel : Nat) (pos : Pos) (stack : List Ctx)
    (token : Option Node) (delim : PyDelim) : HR :=
  handleRun fuel pos (.save stack token delim)

/-! ## The parse driver (`Parser.run`) -/

/-- Result of the read-and-dispatch loop of `Parser.run`, before the
`except MProcParseError` clause. -/
inductive RunRes where
  | tree (t : Node)
  | error (e : Err)
  | crash
  | fuelOut

/-- The `while self.stack` loop of `Parser.run`. -/
def runLoop (fuel : Nat) (r : Reader) (stack : List Ctx) : RunRes :=
  match fuel with
  | 0 => .fuelOut
  | fuel + 1 =>
    match stack with
    | [] => .crash
    | ctx :: _ =>
      match read_piece ctx.params r with
      | .error e => .error e
      | .ok out =>
        match handlePiece fuel out.reader.pos stack out.piece out.delim with
        | .ok stack' => runLoop fuel out.reader stack'
        | .finished t => .tree t
        | .err e => .error e
        | .crash => .crash
        | .fuelOut => .fuelOut

/-- `Parser.run` up to (but not including) the `except` clause: push the
root context and loop. -/
def runExcept (fuel : Nat) (input : Str) : RunRes :=
  runLoop fuel (Reader.init input) [.root []]

/-- Observable outcome of `Parser.run` including the `except` clause. -/
inductive PRun where
  | tree (t : Node)
  /-- The process terminated through `exit(code)` after printing the
  diagnostic to stderr. -/
  | exited (code : Nat)
  | crash
  | fuelOut

/-- `Parser.run` as observed by the caller: a parse error is printed and the
process exits with status code 0 (`exit(0)`). -/
def run (fuel : Nat) (input : Str) : PRun :=
  match runExcept fuel input with
  | .tree t => .tree t
  | .error _ => .exited 0
  | .crash => .crash
  | .fuelOut => .fuelOut

/-! # Theorems about the claims -/

theorem read_symbol_lineStart (r : Reader) :
    (read_symbol r).2.lineStart = r.lineStart := by
  cases h : r.incLine <;> cases hr : r.rest <;> simp [read_symbol, h, hr]

theorem read_symbol_symbolStart (r : Reader) :
    (read_symbol r).2.symbolStart = r.symbolStart := by
  cases h : r.incLine <;> cases hr : r.rest <;> simp [read_symbol, h, hr]

/-- Behaviour of the string-literal accumulation loop on a clean body
followed by a stopper (or EOF): the body is appended verbatim, the loop
stops on the following character, and the start-position fields are
untouched. -/
theorem stringAccum_run (body : Str)
    (hbody : ∀ c ∈ body, ¬(c = '\n' ∨ c = '"')) :
    ∀ (rest₂ : Str), (∀ s, rest₂.head? = some s → s = '\n' ∨ s = '"') →
    ∀ (fuel : Nat) (r : Reader) (acc : Str), r.rest = body ++ rest₂ →
      body.length ≤ fuel →
      (stringAccum fuel (read_symbol r).1 (read_symbol r).2 acc).1 = acc ++ body ∧
      (stringAccum fuel (read_symbol r).1 (read_symbol r).2 acc).2.1 = rest₂.head? ∧
      (stringAccum fuel (read_symbol r).1 (read_symbol r).2 acc).2.2.rest = rest₂.tail ∧
      (stringAccum fuel (read_symbol r).1 (read_symbol r).2 acc).2.2.lineStart = r.lineStart ∧
      (stringAccum fuel (read_symbol r).1 (read_symbol r).2 acc).2.2.symbolStart = r.symbolStart := by
  induction body with
  | nil =>
    intro rest₂ hstop fuel r acc hrest _
    simp only [List.nil_append] at hrest
    have h1 : (read_symbol r).1 = rest₂.head? := by rw [read_symbol_fst, hrest]
    have h2 : (read_symbol r).2.rest = rest₂.tail := by rw [read_symbol_rest, hrest]
    rw [h1]
    cases rest₂ with
    | nil =>
      cases fuel <;>
        simp [stringAccum, h2, read_symbol_lineStart, read_symbol_symbolStart]
    | cons s t =>
      have hs := hstop s rfl
      cases fuel <;>
        simp [stringAccum, hs, h2, read_symbol_lineStart, read_symbol_symbolStart]
  | cons b bs ih =>
    intro rest₂ hstop fuel r acc hrest hfuel
    cases fuel with
    | zero => simp at hfuel
    | succ f =>
      have h1 : (read_symbol r).1 = some b := by rw [read_symbol_fst, hrest]; rfl
      rw [h1]
      have hb : ¬(b = '\n' ∨ b = '"') := hbody b (by simp)
      simp only [stringAccum, if_neg hb]
      have hr₂ : (read_symbol r).2.rest = bs ++ rest₂ := by
        rw [read_symbol_rest, hrest]; rfl
      have hih := ih (fun c hc => hbody c (List.mem_cons_of_mem _ hc)) rest₂ hstop f
        (read_symbol r).2 (acc ++ [b]) hr₂ (Nat.le_of_succ_le_succ (by simpa using hfuel))
      simpa [read_symbol_lineStart, read_symbol_symbolStart] using hih

/-- Behaviour of the normal accumulation loop of `read_piece` on a
comment-free, delimiter-free body followed by a delimiter (or EOF): the
body is captured verbatim and the loop stops on the following character. -/
theorem pieceLoop_run (delims : Str) (body : Str)
    (hbody : ∀ c ∈ body, delims.contains c = false ∧ c ≠ '/') :
    ∀ (rest₂ : Str), memDelim rest₂.head? delims = true →
    ∀ (fuel : Nat) (aSp eWs : Bool) (r : Reader) (acc : Str),
      r.rest = body ++ rest₂ → body.length ≤ fuel →
      (pieceLoop fuel aSp eWs delims (read_symbol r).1 (read_symbol r).2
          acc false delims).1 = acc ++ body ∧
      (pieceLoop fuel aSp eWs delims (read_symbol r).1 (read_symbol r).2
          acc false delims).2.1 = rest₂.head? := by
  induction body with
  | nil =>
    intro rest₂ hstop fuel aSp eWs r acc hrest _
    simp only [List.nil_append] at hrest
    have h1 : (read_symbol r).1 = rest₂.head? := by rw [read_symbol_fst, hrest]
    rw [h1]
    cases fuel with
    | zero => simp [pieceLoop]
    | succ f => simp [pieceLoop, hstop]
  | cons b bs ih =>
    intro rest₂ hstop fuel aSp eWs r acc hrest hfuel
    cases fuel with
    | zero => simp at hfuel
    | succ f =>
      have h1 : (read_symbol r).1 = some b := by rw [read_symbol_fst, hrest]; rfl
      rw [h1]
      have hb := hbody b (by simp)
      have hmem : memDelim (some b) delims = false := hb.1
      have hslash : ¬ b = '/' := hb.2
      simp only [pieceLoop, hmem, Bool.false_eq_true, if_false, if_neg hslash]
      have hr₂ : (read_symbol r).2.rest = bs ++ rest₂ := by
        rw [read_symbol_rest, hrest]; rfl
      have hih := ih (fun c hc => hbody c (List.mem_cons_of_mem _ hc)) rest₂ hstop f
        aSp eWs (read_symbol r).2 (acc ++ [b]) hr₂
        (Nat.le_of_succ_le_succ (by simpa using hfuel))
      simpa using hih

/-- Exact-symbols mode reads all remaining characters (and nothing more)
when fewer than the budget remain. -/
theorem readExact_short : ∀ (n : Nat) (r : Reader) (acc : Str),
    r.rest.length ≤ n → (readExact n r acc).1 = acc ++ r.rest := by
  intro n
  induction n with
  | zero =>
    intro r acc h
    have hr : r.rest = [] := List.eq_nil_of_length_eq_zero (Nat.le_zero.mp h)
    simp [readExact, hr]
  | succ m ih =>
    intro r acc h
    cases hr : r.rest with
    | nil =>
      have h1 : (read_symbol r).1 = none := by rw [read_symbol_fst, hr]; rfl
      have h2 : (read_symbol r).2.rest = [] := by rw [read_symbol_rest, hr]; rfl
      have hih := ih (read_symbol r).2 acc (by simp [h2])
      simp only [readExact, h1] at *
      simpa [h2] using hih
    | cons a t =>
      have h1 : (read_symbol r).1 = some a := by rw [read_symbol_fst, hr]; rfl
      have h2 : (read_symbol r).2.rest = t := by rw [read_symbol_rest, hr]; rfl
      have hlen : t.length ≤ m := by
        rw [hr] at h; simpa using Nat.le_of_succ_le_succ h
      have hih := ih (read_symbol r).2 (acc ++ [a]) (by rw [h2]; exact hlen)
      simp only [readExact, h1, Option.toList_some] at *
      rw [hih, h2]
      simp

/-- Behaviour of the string-literal mode on a body free of newline and
quote characters: the four possible outcomes. -/
theorem readStringPiece_spec (delims : Str) (r : Reader) (body rest₂ : Str)
    (hrest : r.rest = body ++ rest₂)
    (hbody : ∀ c ∈ body, ¬(c = '\n' ∨ c = '"')) :
    (∀ t, rest₂ = '\n' :: t →
      readStringPiece delims r = .error ⟨r.lineStart, r.symbolStart, .eofError⟩) ∧
    (rest₂ = [] →
      readStringPiece delims r = .error ⟨r.lineStart, r.symbolStart, .eofError⟩) ∧
    (∀ d t, rest₂ = '"' :: d :: t → delims.contains d = false →
      readStringPiece delims r = .error ⟨r.lineStart, r.symbolStart,
        .invalidStringLiteral ('"' :: body ++ ['"', d])⟩) ∧
    (∀ t, rest₂ = '"' :: t → memDelim t.head? delims = true →
      ∃ r', readStringPiece delims r = .ok ⟨'"' :: body ++ ['"'], .ofOpt t.head?, r'⟩) := by
  have hfuel : body.length ≤ (read_symbol r).2.rest.length + 1 := by
    rw [read_symbol_rest, hrest]
    simp [List.length_tail]
    omega
  refine ⟨?_, ?_, ?_, ?_⟩
  · intro t ht
    subst ht
    have hstop : ∀ s, (('\n' :: t) : Str).head? = some s → s = '\n' ∨ s = '"' := by
      intro s hs
      simp only [List.head?_cons, Option.some.injEq] at hs
      exact Or.inl hs.symm
    have hsa := stringAccum_run body hbody ('\n' :: t) hstop
      ((read_symbol r).2.rest.length + 1) r ['"'] hrest hfuel
    simp only [readStringPiece]
    simp [hsa.2.1, hsa.2.2.2.1, hsa.2.2.2.2]
  · intro ht
    subst ht
    have hstop : ∀ s, (([] : Str)).head? = some s → s = '\n' ∨ s = '"' := by
      intro s hs
      simp at hs
    have hsa := stringAccum_run body hbody [] hstop
      ((read_symbol r).2.rest.length + 1) r ['"'] hrest hfuel
    simp only [readStringPiece]
    simp [hsa.2.1, hsa.2.2.2.1, hsa.2.2.2.2]
  · intro d t ht hd
    subst ht
    have hstop : ∀ s, (('"' :: d :: t) : Str).head? = some s → s = '\n' ∨ s = '"' := by
      intro s hs
      simp only [List.head?_cons, Option.some.injEq] at hs
      exact Or.inr hs.symm
    have hsa := stringAccum_run body hbody ('"' :: d :: t) hstop
      ((read_symbol r).2.rest.length + 1) r ['"'] hrest hfuel
    have hc3 : (read_symbol (stringAccum ((read_symbol r).2.rest.length + 1)
        (read_symbol r).1 (read_symbol r).2 ['"']).2.2).1 = some d := by
      rw [read_symbol_fst, hsa.2.2.1]
      rfl
    have hmem : memDelim (some d) delims = false := hd
    simp only [readStringPiece]
    rw [hsa.2.1]
    simp only [ne_eq, not_true_eq_false, if_false, reduceIte, hc3, hmem,
      Bool.false_eq_true]
    rw [read_symbol_lineStart, read_symbol_symbolStart, hsa.2.2.2.1, hsa.2.2.2.2,
      hsa.1]
    simp
  · intro t ht hmem
    subst ht
    have hstop : ∀ s, (('"' :: t) : Str).head? = some s → s = '\n' ∨ s = '"' := by
      intro s hs
      simp only [List.head?_cons, Option.some.injEq] at hs
      exact Or.inr hs.symm
    have hsa := stringAccum_run body hbody ('"' :: t) hstop
      ((read_symbol r).2.rest.length + 1) r ['"'] hrest hfuel
    have hc3 : (read_symbol (stringAccum ((read_symbol r).2.rest.length + 1)
        (read_symbol r).1 (read_symbol r).2 ['"']).2.2).1 = t.head? := by
      rw [read_symbol_fst, hsa.2.2.1]
      rfl
    refine ⟨(read_symbol (stringAccum ((read_symbol r).2.rest.length + 1)
      (read_symbol r).1 (read_symbol r).2 ['"']).2.2).2, ?_⟩
    simp only [readStringPiece]
    rw [hsa.2.1]
    simp only [ne_eq, not_true_eq_false, if_false, reduceIte, hc3, hmem, if_true]
    rw [hsa.1]
    simp

/-- **C4**: in string mode (the first non-skipped character of the piece
is `"`) the lexer accumulates with the delimiter set `{newline, ", EOF}`;
stopping on newline or EOF raises the unterminated-literal error, and
stopping on the closing `"` with the next character outside the context's
original delimiter set raises the invalid-string-literal error — both
located at the piece's start position. -/
theorem claim_C4_string_mode (p : LexParams) (r : Reader) (body rest₂ : Str)
    (hexact : p.exactSymbols = 0) (hsp : p.allowSpaces = false)
    (hrest : r.rest = '"' :: (body ++ rest₂))
    (hbody : ∀ c ∈ body, ¬(c = '\n' ∨ c = '"')) :
    (∀ t, rest₂ = '\n' :: t →
      read_piece p r = .error ⟨startLineOf r, startSymOf r, .eofError⟩) ∧
    (rest₂ = [] →
      read_piece p r = .error ⟨startLineOf r, startSymOf r, .eofError⟩) ∧
    (∀ d t, rest₂ = '"' :: d :: t → p.delimiters.contains d = false →
      read_piece p r = .error ⟨startLineOf r, startSymOf r,
        .invalidStringLiteral ('"' :: body ++ ['"', d])⟩) ∧
    (∀ t, rest₂ = '"' :: t → memDelim t.head? p.delimiters = true →
      ∃ r', read_piece p r = .ok ⟨'"' :: body ++ ['"'], .ofOpt t.head?, r'⟩) := by
  have hres : (resetStart r).rest = '"' :: (body ++ rest₂) := hrest
  have hfst : (read_symbol (resetStart r)).1 = some '"' := by
    rw [read_symbol_fst, hres]
    rfl
  have key : read_piece p r = readStringPiece p.delimiters
      (read_symbol (resetStart r)).2 := by
    simp [read_piece, hexact, hsp, hfst]
  have hr2 : (read_symbol (resetStart r)).2.rest = body ++ rest₂ := by
    rw [read_symbol_rest, hres]
    rfl
  have hls : (read_symbol (resetStart r)).2.lineStart = startLineOf r := by
    rw [read_symbol_lineStart]
    rfl
  have hss : (read_symbol (resetStart r)).2.symbolStart = startSymOf r := by
    rw [read_symbol_symbolStart]
    rfl
  have spec := readStringPiece_spec p.delimiters _ body rest₂ hr2 hbody
  rw [hls, hss] at spec
  rw [key]
  exact spec

/-- Witness for C4: the unterminated and invalid-literal errors at concrete
inputs, and the normal exit. -/
theorem claim_C4_string_mode_witness :
    read_piece ⟨['\n', ',', ')'], false, false, 0⟩ (Reader.init "\"ab\nz".toList) =
      .error ⟨1, 1, .eofError⟩ ∧
    read_piece ⟨['\n', ',', ')'], false, false, 0⟩ (Reader.init "\"ab".toList) =
      .error ⟨1, 1, .eofError⟩ ∧
    read_piece ⟨['\n', ',', ')'], false, false, 0⟩ (Reader.init "\"ab\"x".toList) =
      .error ⟨1, 1, .invalidStringLiteral "\"ab\"x".toList⟩ ∧
    (∃ r', read_piece ⟨['\n', ',', ')'], false, false, 0⟩ (Reader.init "\"ab\",y".toList) =
      .ok ⟨"\"ab\"".toList, .chr ',', r'⟩) :=
  ⟨(claim_C4_string_mode ⟨['\n', ',', ')'], false, false, 0⟩
      (Reader.init "\"ab\nz".toList) "ab".toList ['\n', 'z'] rfl rfl rfl
      (by decide)).1 ['z'] rfl,
   (claim_C4_string_mode ⟨['\n', ',', ')'], false, false, 0⟩
      (Reader.init "\"ab".toList) "ab".toList [] rfl rfl rfl (by decide)).2.1 rfl,
   (claim_C4_string_mode ⟨['\n', ',', ')'], false, false, 0⟩
      (Reader.init "\"ab\"x".toList) "ab".toList ['"', 'x'] rfl rfl rfl
      (by decide)).2.2.1 'x' [] rfl (by decide),
   (claim_C4_string_mode ⟨['\n', ',', ')'], false, false, 0⟩
      (Reader.init "\"ab\",y".toList) "ab".toList ['"', ',', 'y'] rfl rfl rfl
      (by decide)).2.2.2 [',', 'y'] rfl (by decide)⟩

/-- **C5**: at end of file, `read_symbol` returns the EOF marker without
incrementing the column counter (it is at most reset to `0` by the pending
newline), and a further read past EOF is the identity on the reader state
and returns the EOF marker again — hence every later read does too. -/
theorem claim_C5_read_symbol_eof (r : Reader) (h : (read_symbol r).1 = none) :
    (read_symbol r).2.symbolEnd ≤ r.symbolEnd ∧
    (read_symbol r).2.symbolEnd = (if r.incLine then 0 else r.symbolEnd) ∧
    read_symbol (read_symbol r).2 = (none, (read_symbol r).2) := by
  have hrest : r.rest = [] := by
    rw [read_symbol_fst] at h
    cases hR : r.rest with
    | nil => rfl
    | cons a t => rw [hR] at h; simp at h
  cases hinc : r.incLine <;>
    refine ⟨?_, ?_, ?_⟩ <;> simp [read_symbol, hrest, hinc]

/-- Witness for C5 at a concrete reader standing at end of file. -/
theorem claim_C5_read_symbol_eof_witness :
    (read_symbol ⟨[], 1, 3, 5, 7, true⟩).1 = none ∧
    ((read_symbol ⟨[], 1, 3, 5, 7, true⟩).2.symbolEnd ≤ 7 ∧
     (read_symbol ⟨[], 1, 3, 5, 7, true⟩).2.symbolEnd = 0 ∧
     read_symbol (read_symbol ⟨[], 1, 3, 5, 7, true⟩).2 =
       (none, (read_symbol ⟨[], 1, 3, 5, 7, true⟩).2)) :=
  ⟨rfl, (claim_C5_read_symbol_eof ⟨[], 1, 3, 5, 7, true⟩ rfl).1,
    (claim_C5_read_symbol_eof ⟨[], 1, 3, 5, 7, true⟩ rfl).2.1,
    (claim_C5_read_symbol_eof ⟨[], 1, 3, 5, 7, true⟩ rfl).2.2⟩

/-- **C9**: the one-character piece `"` begins and ends with a quote, so
`parse_token` classifies it as a string literal with empty value — not as
an identifier and not as an error. -/
theorem claim_C9_single_quote (pos : Pos) :
    parse_token pos ['"'] = .ok (.strLit pos.lineStart pos.symbolStart []) := rfl

/-- Concrete evaluation of the float embedding on `2.2` (after the
trailing-dot strip of `2.2.`). -/
theorem pyFloat_two_two :
    pyFloatOfStr (dotStripped ['2', '.', '2', '.']) = some (.finite (11 / 5)) := by
  have h1 : pyFloatOfStr (dotStripped ['2', '.', '2', '.']) =
      some (.finite ((digitsVal ['2'] : ℚ) +
        (digitsVal ['2'] : ℚ) / (10 : ℚ) ^ (['2'] : Str).length)) := rfl
  have h2 : digitsVal ['2'] = 2 := by decide
  rw [h1, h2]
  norm_num

/-- Concrete evaluation of the float embedding on `3.5`. -/
theorem pyFloat_three_five :
    pyFloatOfStr (dotStripped ['3', '.', '5']) = some (.finite (7 / 2)) := by
  have h1 : pyFloatOfStr (dotStripped ['3', '.', '5']) =
      some (.finite ((digitsVal ['3'] : ℚ) +
        (digitsVal ['5'] : ℚ) / (10 : ℚ) ^ (['5'] : Str).length)) := rfl
  have h2 : digitsVal ['3'] = 3 := by decide
  have h3 : digitsVal ['5'] = 5 := by decide
  rw [h1, h2, h3]
  norm_num

/-- **C3**: `parse_token` classifies a non-empty piece in order: quoted →
string literal with the quotes stripped; else integer with base 16 for a
`0x` prefix, 2 for `0b`, 10 otherwise; else float after stripping one
trailing `.` (so `2.2.` yields the float 2.2); else identifier token.  An
empty piece raises a token-expected error. -/
theorem claim_C3_parse_token (pos : Pos) (piece : Str) :
    (tokenBase piece =
      if ['0', 'x'].isPrefixOf piece then 16
      else if ['0', 'b'].isPrefixOf piece then 2 else 10) ∧
    (dotStripped piece = if ['.'].isSuffixOf piece then piece.dropLast else piece) ∧
    (piece = [] →
      parse_token pos piece = .error ⟨pos.lineStart, pos.symbolStart, .tokenExpected⟩) ∧
    (piece ≠ [] → ['"'].isPrefixOf piece → ['"'].isSuffixOf piece →
      parse_token pos piece =
        .ok (.strLit pos.lineStart pos.symbolStart ((piece.drop 1).dropLast))) ∧
    (∀ z : Int, piece ≠ [] → ¬(['"'].isPrefixOf piece ∧ ['"'].isSuffixOf piece) →
      pyIntOfStr piece (tokenBase piece) = some z →
      parse_token pos piece = .ok (.numeric pos.lineStart pos.symbolStart (.int z))) ∧
    (∀ f : PyFloat, piece ≠ [] → ¬(['"'].isPrefixOf piece ∧ ['"'].isSuffixOf piece) →
      pyIntOfStr piece (tokenBase piece) = none →
      pyFloatOfStr (dotStripped piece) = some f →
      parse_token pos piece = .ok (.numeric pos.lineStart pos.symbolStart (.float f))) ∧
    (piece ≠ [] → ¬(['"'].isPrefixOf piece ∧ ['"'].isSuffixOf piece) →
      pyIntOfStr piece (tokenBase piece) = none →
      pyFloatOfStr (dotStripped piece) = none →
      parse_token pos piece = .ok (.token pos.lineStart pos.symbolStart piece)) ∧
    parse_token pos "2.2.".toList =
      .ok (.numeric pos.lineStart pos.symbolStart (.float (.finite (11 / 5)))) := by
  have hq : ∀ (pc : Str), ¬(['"'].isPrefixOf pc ∧ ['"'].isSuffixOf pc) →
      (¬(['"'] <+: pc ∧ ['"'] <:+ pc)) := by
    intro pc h hc
    exact h ⟨List.isPrefixOf_iff_prefix.mpr hc.1, List.isSuffixOf_iff_suffix.mpr hc.2⟩
  have hfl : pyFloatOfStr (dotStripped ['2', '.', '2', '.']) = some (.finite (11 / 5)) :=
    pyFloat_two_two
  have hin : pyIntOfStr ['2', '.', '2', '.'] (tokenBase ['2', '.', '2', '.']) = none := by
    decide
  refine ⟨rfl, rfl, ?_, ?_, ?_, ?_, ?_, ?_⟩
  · intro h
    simp [parse_token, h, Pos.exc]
  · intro h1 h2 h3
    simp [parse_token, h1, h2, h3]
  · intro z h1 h2 h3
    simp [parse_token, h1, h3]
    intro hp hs
    exact absurd ⟨hp, hs⟩ (hq piece h2)
  · intro f h1 h2 h3 h4
    simp [parse_token, h1, h3, h4]
    intro hp hs
    exact absurd ⟨hp, hs⟩ (hq piece h2)
  · intro h1 h2 h3 h4
    simp [parse_token, h1, h3, h4]
    intro hp hs
    exact absurd ⟨hp, hs⟩ (hq piece h2)
  · simp [parse_token, hin, hfl]

/-- Witness for C3 at concrete pieces of every class. -/
theorem claim_C3_parse_token_witness :
    parse_token ⟨2, 7, 2, 9⟩ [] = .error ⟨2, 7, .tokenExpected⟩ ∧
    parse_token ⟨2, 7, 2, 9⟩ "\"ab\"".toList = .ok (.strLit 2 7 "ab".toList) ∧
    parse_token ⟨2, 7, 2, 9⟩ "0x1f".toList = .ok (.numeric 2 7 (.int 31)) ∧
    parse_token ⟨2, 7, 2, 9⟩ "3.5".toList = .ok (.numeric 2 7 (.float (.finite (7 / 2)))) ∧
    parse_token ⟨2, 7, 2, 9⟩ "abc".toList = .ok (.token 2 7 "abc".toList) :=
  ⟨(claim_C3_parse_token ⟨2, 7, 2, 9⟩ []).2.2.1 rfl,
   (claim_C3_parse_token ⟨2, 7, 2, 9⟩ "\"ab\"".toList).2.2.2.1
     (by decide) (by decide) (by decide),
   (claim_C3_parse_token ⟨2, 7, 2, 9⟩ "0x1f".toList).2.2.2.2.1 31
     (by decide) (by decide) (by decide),
   (claim_C3_parse_token ⟨2, 7, 2, 9⟩ "3.5".toList).2.2.2.2.2.1 (.finite (7 / 2))
     (by decide) (by decide) (by decide) pyFloat_three_five,
   (claim_C3_parse_token ⟨2, 7, 2, 9⟩ "abc".toList).2.2.2.2.2.2.1
     (by decide) (by decide) (by decide) (by decide)⟩

/-- **C1 counterexample**: a raw `#mlog` body containing `/` is **not**
captured verbatim — the lexer's comment mode drops the `/` and the rest of
that line (keeping the newline), so the body `a/b\nc\n` is stored as
`a\nc\n`. -/
theorem claim_C1_counterexample :
    runExcept 300 "#mlog\na/b\nc\n#endmlog\n".toList =
      .tree (.root 1 1 [.mlogN 1 1 "a\nc\n".toList]) ∧
    ("a\nc\n".toList : Str) ≠ "a/b\nc\n".toList :=
  ⟨rfl, by decide⟩

/-- **C1 (amended)**: the text between a raw-body header and the closing
`#` line is captured verbatim (trailing newline included) provided it
contains no `/` (and does not start with `"`): for any reader whose
remaining input is such a body followed by `#`, the raw-body lexer call
(`MLogContext`'s parameters: delimiters `{#, EOF}`, no space skipping)
returns exactly the body.  Concretely, a clean `#mlog` body lands verbatim
in the `MLog` node, trailing newline included. -/
theorem claim_C1_raw_body_verbatim :
    (∀ (r : Reader) (body t : Str), r.rest = body ++ '#' :: t →
      '#' ∉ body → '/' ∉ body → body.head? ≠ some '"' →
      ∃ r', read_piece Ctx.mlogCtx.params r = .ok ⟨body, .chr '#', r'⟩) ∧
    runExcept 300 "#mlog\nset x 1\n#endmlog\n".toList =
      .tree (.root 1 1 [.mlogN 1 1 "set x 1\n".toList]) := by
  constructor
  · intro r body t hrest h1 h2 h3
    have hb : ∀ c ∈ body, (['#'] : Str).contains c = false ∧ c ≠ '/' := by
      intro c hc
      constructor
      · simp only [List.contains_cons, List.contains_nil, Bool.or_false]
        exact beq_eq_false_iff_ne.mpr fun he => h1 (he ▸ hc)
      · intro he
        exact h2 (he ▸ hc)
    have hstop : memDelim (('#' :: t) : Str).head? ['#'] = true := by
      simp [memDelim]
    have hres : (resetStart r).rest = body ++ '#' :: t := hrest
    have hr2 : (read_symbol (resetStart r)).2.rest = (body ++ '#' :: t).tail := by
      rw [read_symbol_rest, hres]
    have hq : ¬ (read_symbol (resetStart r)).1 = some '"' := by
      rw [read_symbol_fst, hres]
      cases hbd : body with
      | nil => simp
      | cons b bs =>
        simp only [List.cons_append, List.head?_cons, Option.some.injEq]
        intro he
        exact h3 (by rw [hbd, he]; rfl)
    have hfuel : body.length ≤ 3 * (read_symbol (resetStart r)).2.rest.length + 4 := by
      rw [hr2]
      simp [List.length_tail]
      omega
    have hloop := pieceLoop_run ['#'] body hb ('#' :: t) hstop
      (3 * (read_symbol (resetStart r)).2.rest.length + 4) false false
      (resetStart r) [] hres hfuel
    refine ⟨(pieceLoop (3 * (read_symbol (resetStart r)).2.rest.length + 4)
      false false ['#'] (read_symbol (resetStart r)).1 (read_symbol (resetStart r)).2
      [] false ['#']).2.2, ?_⟩
    simp only [read_piece, Ctx.params]
    simp only [ne_eq, OfNat.ofNat_ne_zero, not_false_eq_true, reduceIte,
      Bool.false_eq_true, if_false, hq]
    rw [show (pieceLoop (3 * (read_symbol (resetStart r)).2.rest.length + 4)
      false false ['#'] (read_symbol (resetStart r)).1 (read_symbol (resetStart r)).2
      [] false ['#']).1 = [] ++ body from hloop.1]
    rw [show (pieceLoop (3 * (read_symbol (resetStart r)).2.rest.length + 4)
      false false ['#'] (read_symbol (resetStart r)).1 (read_symbol (resetStart r)).2
      [] false ['#']).2.1 = (('#' :: t) : Str).head? from hloop.2]
    simp [PyDelim.ofOpt]
  · rfl

/-- Witness for C1 at a concrete clean raw body. -/
theorem claim_C1_raw_body_verbatim_witness :
    ∃ r', read_piece Ctx.mlogCtx.params (Reader.init "ab\n#end".toList) =
      .ok ⟨"ab\n".toList, .chr '#', r'⟩ :=
  claim_C1_raw_body_verbatim.1 (Reader.init "ab\n#end".toList) "ab\n".toList
    "end".toList rfl (by decide) (by decide) (by decide)

/-- **C10**: in exact-symbols mode, when fewer characters than requested
remain before EOF, `read_piece` returns the shorter piece (all remaining
characters, possibly none) with the `None` delimiter and raises no error;
consequently a `-` at end of file in a function definition header yields
the unexpected-symbol error quoting `-` (from `MustBeArrowContext`), not
an unexpected-end-of-file error. -/
theorem claim_C10_exact_symbols_eof :
    (∀ (p : LexParams) (r : Reader), p.exactSymbols ≠ 0 →
      r.rest.length < p.exactSymbols →
      ∃ r', read_piece p r = .ok ⟨r.rest, .null, r'⟩) ∧
    runExcept 300 "#func f(a) -".toList = .error ⟨1, 13, .parseError ['-']⟩ := by
  constructor
  · intro p r h1 h2
    refine ⟨(readExact p.exactSymbols (resetStart r) []).2, ?_⟩
    have hlen : (resetStart r).rest.length ≤ p.exactSymbols := le_of_lt h2
    have hshort := readExact_short p.exactSymbols (resetStart r) [] hlen
    simp only [read_piece, h1, if_true, ne_eq, not_false_eq_true, reduceIte]
    rw [hshort]
    rfl
  · rfl

/-- Witness for C10: exact-symbols mode at EOF returns the empty piece
with the `None` delimiter. -/
theorem claim_C10_exact_symbols_eof_witness :
    ∃ r', read_piece ⟨Context_delimiters, true, false, 1⟩ (Reader.init []) =
      .ok ⟨[], .null, r'⟩ :=
  claim_C10_exact_symbols_eof.1 ⟨Context_delimiters, true, false, 1⟩
    (Reader.init []) (by decide) (by decide)

/-- **C6**: on a `#endX` word, the `BlockEnd` context pops itself and the
`NewStatement` frame above it; if the context now on top does not hold a
node of the block type for `X`, a parse error quoting `#endX` (an
"unexpected symbol" diagnostic) is raised, and if it does, that context's
`save_statement` finalises and delivers the block node.  Concretely, a
mismatched end word yields `unexpected symbol "#enddef"`, and a matching
one delivers the finished block. -/
theorem claim_C6_block_end (fuel : Nat) (pos : Pos) (ty : BlockType) (name : Str)
    (nsc blockCtx : Ctx) (rest : List Ctx) (d : PyDelim)
    (hnsc : nsc.isNewStatementKind = true) :
    ((match blockCtx.contentAttr with
      | some (some n) => nodeIs n ty = false
      | _ => True) →
      handlePiece (fuel + 1) pos (.blockEnd ty name :: nsc :: blockCtx :: rest) [] d =
        .err ⟨pos.lineStart, pos.symbolStart, .parseError ('#' :: name)⟩) ∧
    (∀ n, blockCtx.contentAttr = some (some n) → nodeIs n ty = true →
      handlePiece (fuel + 1) pos (.blockEnd ty name :: nsc :: blockCtx :: rest) [] d =
        saveStatement fuel pos (blockCtx :: rest) (some n) d) ∧
    runExcept 300 "#init\na = 3\n#enddef\n".toList =
      .error ⟨3, 2, .parseError "#enddef".toList⟩ ∧
    runExcept 300 "#init\na = 3\n#endinit\n".toList =
      .tree (.root 1 1 [.initN 1 1
        [.assignment 2 1 (.token 2 1 ['a']) (.numeric 2 5 (.int 3))]]) := by
  refine ⟨?_, ?_, rfl, rfl⟩
  · intro hmis
    rcases hattr : blockCtx.contentAttr with _ | oc
    · simp [handlePiece, handleRun, stepPiece, hnsc, hattr, Pos.exc]
    · rcases oc with _ | n
      · simp [handlePiece, handleRun, stepPiece, hnsc, hattr, Pos.exc]
      · rw [hattr] at hmis
        simp [handlePiece, handleRun, stepPiece, hnsc, hattr, hmis, Pos.exc]
  · intro n hattr hty
    simp [handlePiece, saveStatement, handleRun, stepPiece, hnsc, hattr, hty]

/-- Witness for C6 at a concrete stack: `#enddef` meeting an open `#init`
block errors, while `#endinit` hands the block to its `save_statement`. -/
theorem claim_C6_block_end_witness :
    handlePiece 6 ⟨3, 2, 3, 8⟩
        [.blockEnd .defT "enddef".toList, .newStatement,
          .simpleBlock (.initN 1 1 []), .root []] [] .null =
      .err ⟨3, 2, .parseError "#enddef".toList⟩ ∧
    handlePiece 6 ⟨3, 2, 3, 9⟩
        [.blockEnd .init "endinit".toList, .newStatement,
          .simpleBlock (.initN 1 1 []), .root []] [] .null =
      saveStatement 5 ⟨3, 2, 3, 9⟩ [.simpleBlock (.initN 1 1 []), .root []]
        (some (.initN 1 1 [])) .null :=
  ⟨(claim_C6_block_end 5 ⟨3, 2, 3, 8⟩ .defT "enddef".toList .newStatement
      (.simpleBlock (.initN 1 1 [])) [.root []] .null rfl).1 (by exact rfl),
   (claim_C6_block_end 5 ⟨3, 2, 3, 9⟩ .init "endinit".toList .newStatement
      (.simpleBlock (.initN 1 1 [])) [.root []] .null rfl).2.1
      (.initN 1 1 []) rfl rfl⟩

/-- **C7 counterexample**: the structure error raised when `#` arrives
together with a non-empty piece at statement start is located at the piece
**start**, not the piece end: on the input `x#` the piece `x` starts at
`(1, 1)` and ends at `(1, 2)`, and the error carries `(1, 1)`. -/
theorem claim_C7_counterexample :
    runExcept 300 "x#".toList = .error ⟨1, 1, .structureError⟩ ∧
    handlePiece 6 ⟨1, 1, 1, 2⟩ [.newStatement, .root []] ['x'] (.chr '#') =
      .err ⟨1, 1, .structureError⟩ ∧
    (⟨1, 1, .structureError⟩ : Err) ≠ ⟨1, 2, .structureError⟩ :=
  ⟨rfl, rfl, by decide⟩

/-- **C7 (amended)**: diagnostics take the piece-start coordinates in most
cases and the piece-end coordinates in the structural `#` and `)` cases —
except that the statement-start structure error (`#` together with a
non-empty piece in `NewStatementContext`) is located at the piece
**start**.  The `)` case at statement start and the `#` case after a
carried token do use the piece end. -/
theorem claim_C7_error_positions (fuel : Nat) (pos : Pos) (rest : List Ctx)
    (piece : Str) (tok : Option Node) (e : Bool) :
    (piece ≠ [] →
      handlePiece (fuel + 1) pos (.newStatement :: rest) piece (.chr '#') =
        .err ⟨pos.lineStart, pos.symbolStart, .structureError⟩) ∧
    (∀ t, parse_token pos piece = .ok t →
      handlePiece (fuel + 1) pos (.newStatement :: rest) piece (.chr ')') =
        .err ⟨pos.lineEnd, pos.symbolEnd, .parseError [')']⟩) ∧
    (handlePiece (fuel + 1) pos (.skipSpaces tok e :: rest) [] (.chr '#') =
      .err ⟨pos.lineEnd, pos.symbolEnd, .structureError⟩) := by
  refine ⟨?_, ?_, ?_⟩
  · intro h
    simp [handlePiece, handleRun, stepPiece, h, Pos.exc]
  · intro t ht
    simp [handlePiece, handleRun, stepPiece, ht, Pos.excEnd]
  · simp [handlePiece, handleRun, stepPiece, Pos.excEnd]

/-- Witness for C7 at a concrete position pair. -/
theorem claim_C7_error_positions_witness :
    handlePiece 6 ⟨1, 1, 1, 2⟩ [.newStatement] ['x'] (.chr '#') =
      .err ⟨1, 1, .structureError⟩ ∧
    handlePiece 6 ⟨1, 1, 1, 2⟩ [.newStatement] ['x'] (.chr ')') =
      .err ⟨1, 2, .parseError [')']⟩ ∧
    handlePiece 6 ⟨1, 1, 1, 2⟩ [.skipSpaces none false] [] (.chr '#') =
      .err ⟨1, 2, .structureError⟩ :=
  ⟨(claim_C7_error_positions 5 ⟨1, 1, 1, 2⟩ [] ['x'] none false).1 (by decide),
   (claim_C7_error_positions 5 ⟨1, 1, 1, 2⟩ [] ['x'] none false).2.1
     (.token 1 1 ['x']) rfl,
   (claim_C7_error_positions 5 ⟨1, 1, 1, 2⟩ [] ['x'] none false).2.2⟩

/-- **C8**: a blank first line after `=` (a child of the right-hand-side
context completing with a newline delimiter and no content) switches the
context to skipping newlines as whitespace, and `x = \n value` parses to
the same tree as `x = value` up to positions. -/
theorem claim_C8_multiline_assignment :
    (∀ (fuel : Nat) (pos : Pos) (lhs : Option Node) (named : Bool)
      (rest : List Ctx),
      handleChildContent (fuel + 1) pos (.rhs lhs named :: rest) none (.chr '\n') =
        .ok (.skipSpaces none true :: .rhs lhs named :: rest)) ∧
    runExcept 300 "x = value".toList =
      .tree (.root 1 1 [.assignment 1 1 (.token 1 1 ['x']) (.token 1 5 "value".toList)]) ∧
    runExcept 300 "x = \n value".toList =
      .tree (.root 1 1 [.assignment 1 1 (.token 1 1 ['x']) (.token 2 2 "value".toList)]) ∧
    erasePos (.root 1 1 [.assignment 1 1 (.token 1 1 ['x']) (.token 1 5 "value".toList)]) =
      erasePos (.root 1 1 [.assignment 1 1 (.token 1 1 ['x']) (.token 2 2 "value".toList)]) :=
  ⟨fun _ _ _ _ _ => rfl, rfl, rfl, rfl⟩

/-- **C2 (amended)**: whenever a parse error is raised during a run, the
run terminates through `exit(0)` — an exit path with status code **0** —
and no tree is returned to the caller. -/
theorem claim_C2_exit_on_error (fuel : Nat) (input : Str) (e : Err)
    (h : runExcept fuel input = .error e) :
    run fuel input = .exited 0 ∧ ∀ t, run fuel input ≠ .tree t := by
  unfold run
  rw [h]
  exact ⟨rfl, fun t hc => by simp at hc⟩

/-- Witness for C2 on a concrete erroring input. -/
theorem claim_C2_exit_on_error_witness :
    run 50 ")".toList = .exited 0 ∧ ∀ t, run 50 ")".toList ≠ .tree t :=
  claim_C2_exit_on_error 50 ")".toList ⟨1, 1, .tokenExpected⟩ rfl

/-- **C2 counterexample**: on the erroring input `)` the run raises a parse
error and then exits with status code `0` — a zero exit code, not the
non-zero exit path the claim states. -/
theorem claim_C2_counterexample :
    runExcept 50 ")".toList = .error ⟨1, 1, .tokenExpected⟩ ∧
    run 50 ")".toList = .exited 0 ∧ (0 : Nat) ≠ 1 :=
  ⟨rfl, rfl, by decide⟩

end MProc
